import Mathlib

/-!
# Verification of the `bussim` linear bus-route simulation

A shallow embedding of `busstop/objects.py` and `busstop/linear.py`:
the entity model (`BusPassenger`, `BusStop`, `Bus`), the per-tick state
transition of `LinearBusRouteModel` (`update`, `update_bus_hori`,
`update_bus_vert`, `update_bus_s`, `stop_at`, `update_stop`, `leave_stop`)
and the run-scoped accumulators.

Modelling conventions:
* Python floats (coordinates, speeds, wall-clock times, money) are embedded
  as rationals `ℚ`; Python ints as `Int`/`Nat`.
* Wall-clock reads (`time.time()`) within a single tick are modelled as one
  `now : ℚ` parameter supplied per tick; randomness (the per-stop arrival
  draw and destination choice of `update_stop`) is modelled as an oracle
  input per tick.  The source redraws an invalid destination until it is
  valid, so the oracle is taken to supply either a valid destination or no
  arrival.
* Code that can raise at runtime (out-of-range list indexing in the
  wait-time histogram update, unassigned local variables in the direction
  classification) is modelled with `Option`: `none` is the raised exception.
* Python mutates `BusStop` objects aliased between `self.stops` and the
  per-geometry lists `self.hori_stops`/`self.vert_stops`/`self.s_stops`;
  the embedding keeps one master store (`Model.stops`) and refers to the
  per-geometry lists by stop name.
-/

/- The Batteries rational-arithmetic primitives are `@[irreducible]`, which
blocks `decide`-style evaluation of the executable semantics on concrete
states; restore the default reducibility for them. -/
set_option allowUnsafeReducibility true in
attribute [semireducible] Rat.add Rat.sub Rat.mul Rat.div Rat.inv

namespace Bussim

/-- Event stream element.  The source emits tuples whose first component is
a tag string; only the tag and the passenger/bus name are retained here. -/
inductive Event where
  | waits (pax : String)
  | boards (pax : String)
  | alights (pax : String)
  | changes (pax : String)
  | left (pax : String)
  | bus_turns (bus : String)
  deriving DecidableEq

def Event.isBoards : Event → Bool
  | .boards _ => true
  | _ => false

def Event.isAlights : Event → Bool
  | .alights _ => true
  | _ => false

def Event.isChanges : Event → Bool
  | .changes _ => true
  | _ => false

def Event.isLeftEv : Event → Bool
  | .left _ => true
  | _ => false

def Event.isBusTurns : Event → Bool
  | .bus_turns _ => true
  | _ => false

/-- Record `BusPassenger` of `busstop/objects.py` (all public attributes). -/
structure BusPassenger where
  name : String
  source : String
  destination : String
  horizontal_direction : Int
  vertical_direction : Int
  inclined_direction : Int
  arrive_time : ℚ
  change : Bool
  changed_and_alight : Bool
  deriving DecidableEq

/-- Record `BusStop` of `busstop/objects.py` (animation attributes omitted). -/
structure BusStop where
  name : String
  position : ℚ × ℚ
  passengers : List BusPassenger
  deriving DecidableEq

/-- The movement geometry of a bus: the `move` attribute `'h'`/`'v'`/`'s'`. -/
inductive MoveKind where
  | h
  | v
  | s
  deriving DecidableEq

/-- The service class of a bus: the `rapid_express_local` attribute
`'r'`/`'e'`/`'l'`. -/
inductive ServiceClass where
  | r
  | e
  | l
  deriving DecidableEq

/-- The per-geometry direction-sign table `bus.busdir`
(a dict with keys `'h'`, `'v'`, `'s'`). -/
structure Busdir where
  h : Int
  v : Int
  s : Int
  deriving DecidableEq

/-- Record `Bus` of `busstop/objects.py`.  `stations` holds the stop names (the
source stores `BusStop` objects but only ever reads `item.name`). -/
structure Bus where
  name : String
  position : ℚ × ℚ
  direction : Int
  speed : ℚ
  passengers : List BusPassenger
  stopped : Bool
  stations : List String
  move : MoveKind
  rapid_express_local : ServiceClass
  capacity : Int
  passenger_count : Nat
  busdir : Busdir
  deriving DecidableEq

/-- The run-scoped accumulators that `LinearBusRouteModel.init` installs on
the model.  `avg_wait_time` is a module-level global in the source; by spec
§9 it is modelled here as a per-run field with the same lifecycle. -/
structure Acc where
  start_time : ℚ
  revenue_list : List ℚ
  plot_times : List ℚ
  avg_wait_time : List Nat
  passenger_count : Nat
  passenger_num : Nat
  board_passengers : Nat
  leave_passengers : Nat
  income : ℚ
  fixed_cost : ℚ
  oil_cost : ℚ
  deriving DecidableEq

/-- Record of `LinearBusRouteModel` state: constructor fields of `BusNetwork.__init__`
plus the accumulators.  The per-geometry stop lists alias objects of
`stops` in the source and are kept here as lists of stop names. -/
structure Model where
  vert_start : ℚ
  vert_end : ℚ
  hori_start : ℚ
  hori_end : ℚ
  s_start : ℚ
  s_end : ℚ
  stops : List BusStop
  hori_stops : List String
  vert_stops : List String
  s_stops : List String
  buses : List Bus
  acc : Acc
  deriving DecidableEq

/-- Python `round` on an exact rational: round half to even. -/
def pythonRound (q : ℚ) : Int :=
  let f := q.floor
  let r := q - (f : ℚ)
  if r < 1 / 2 then f
  else if 1 / 2 < r then f + 1
  else if f % 2 = 0 then f else f + 1

/-- Python `round(q, 1)` on an exact rational. -/
def pyRound1 (q : ℚ) : ℚ :=
  (pythonRound (10 * q) : ℚ) / 10

/-- Python list-index resolution: nonnegative indices address from the
front, negative indices from the back, anything else raises `IndexError`. -/
def pyIndex (len : Nat) (i : Int) : Option Nat :=
  if 0 ≤ i ∧ i < (len : Int) then some i.toNat
  else if -(len : Int) ≤ i ∧ i < 0 then some ((len : Int) + i).toNat
  else none

/-- Python `l[i] += 1` under Python indexing semantics. -/
def pyUpdateAt (l : List Nat) (i : Int) : Option (List Nat) :=
  match pyIndex l.length i with
  | none => none
  | some j => some (l.set j (l.getD j 0 + 1))

/-- Remove the first element satisfying `p`, returning it and the rest.
This is the combined effect of the source's scan-collect-then
`list.remove(found[0])` idiom (object identity coincides with structural
equality in this embedding). -/
def extractFirst (p : α → Bool) : List α → Option (α × List α)
  | [] => none
  | x :: xs =>
    if p x then some (x, xs)
    else (extractFirst p xs).map (fun r => (r.1, x :: r.2))

def Event.isWaits : Event → Bool
  | .waits _ => true
  | _ => false

/-- List `self.busstop` as set by `LinearBusRouteModel.init`. -/
def busstop_names : List String :=
  ["Centre St", "South St", "North St", "West St", "Queens St",
   "East St", "Abbey St", "Harr St", "Steph St", "Kenn St"]

/-- List `self.busstop_y` as set by `init`: the stops on the vertical geometry. -/
def busstop_y : List String := ["South St", "North St", "Centre St"]

/-- List `self.busstop_x` as set by `init`: the stops on the horizontal geometry. -/
def busstop_x : List String :=
  ["West St", "Queens St", "Abbey St", "East St", "Centre St"]

/-- List `self.busstop_s` as set by `init`: the stops on the inclined geometry. -/
def busstop_s : List String :=
  ["Queens St", "North St", "Harr St", "Kenn St", "Steph St"]

/-- Table `self.busstop_coordinates` as set by `init` (total with an unreachable
default: the source only ever looks up the ten configured names). -/
def busstop_coordinates (n : String) : ℚ × ℚ :=
  if n == "West St" then (0, 0)
  else if n == "Queens St" then (25, 0)
  else if n == "Centre St" then (75, 0)
  else if n == "South St" then (75, -30)
  else if n == "North St" then (75, 30)
  else if n == "Abbey St" then (50, 0)
  else if n == "East St" then (100, 0)
  else if n == "Harr St" then (55, 30)
  else if n == "Kenn St" then (5, -20)
  else if n == "Steph St" then (100, 30)
  else (0, 0)

/-- The stop list of the model's own geometry axis used by `stop_at`'s
`not_same_axes` test (`busstop_y` for `'v'`, `busstop_x` for `'h'`,
`busstop_s` for `'s'`). -/
def axis_stops : MoveKind → List String
  | .v => busstop_y
  | .h => busstop_x
  | .s => busstop_s

/-- The passenger direction flag read for a geometry
(`vertical_direction` / `horizontal_direction` / `inclined_direction`). -/
def pax_dir : MoveKind → BusPassenger → Int
  | .v, p => p.vertical_direction
  | .h, p => p.horizontal_direction
  | .s, p => p.inclined_direction

/-- Lookup `bus.busdir[bus.move]`. -/
def busdir_get : MoveKind → Busdir → Int
  | .h, d => d.h
  | .v, d => d.v
  | .s, d => d.s

/-- The `exec`-based zeroing of the alighted passenger's direction flag for
the geometry the bus runs on (`stop_at` line 380). -/
def zero_dir : MoveKind → BusPassenger → BusPassenger
  | .h, p => { p with horizontal_direction := 0 }
  | .v, p => { p with vertical_direction := 0 }
  | .s, p => { p with inclined_direction := 0 }

/-- Membership of the `leaving_passengers` list collected by `stop_at`
(lines 345-354): the stop is the destination, or the stop is a transfer hub
both of whose geometries the passenger still needs. -/
def alight_pred (stopName : String) (p : BusPassenger) : Bool :=
  (p.destination == stopName)
  || (stopName == "Centre St" && p.horizontal_direction != 0
        && p.vertical_direction != 0)
  || (stopName == "Queens St" && p.horizontal_direction != 0
        && p.inclined_direction != 0)
  || (stopName == "North St" && p.vertical_direction != 0
        && p.inclined_direction != 0)

/-- The side effect of the collection scan: `passenger.changed_and_alight`
is set on every onboard passenger whose destination is this stop
(line 348 runs for each of them, not only the eventually alighted one). -/
def mark_changed (stopName : String) (ps : List BusPassenger) :
    List BusPassenger :=
  ps.map fun p =>
    if p.destination == stopName then { p with changed_and_alight := true }
    else p

/-- The boarding candidate test of `stop_at`'s scan over `stop.passengers`:
the service-class station rule plus the direction-sign test.  (The capacity
test is applied to the first candidate separately, as in the source.) -/
def board_pred (bus : Bus) (stopName : String) (p : BusPassenger) : Bool :=
  let direction := pax_dir bus.move p
  let not_same_axes :=
    !(axis_stops bus.move).contains p.destination
      && bus.stations.contains stopName
  let dest_in_stations :=
    bus.stations.contains p.destination && bus.stations.contains stopName
  let class_ok :=
    match bus.rapid_express_local with
    | .r => dest_in_stations || not_same_axes
    | .e => dest_in_stations
    | .l => true
  class_ok && (busdir_get bus.move bus.busdir == direction)

/-- Per-class fare credited on boarding (rapid 3.5, express 5, local 2). -/
def fare : ServiceClass → ℚ
  | .r => 7 / 2
  | .e => 5
  | .l => 2

/-- The wait-time histogram index used on boarding:
`round(current_time - passenger.arrive_time) - 5`. -/
def bucket_index (now arrive : ℚ) : Int :=
  pythonRound (now - arrive) - 5

/-- The boarding scan of `stop_at` (the loop over `stop.passengers`,
duplicated verbatim in the source for the bus-occupied and bus-empty
branches): the first passenger passing `board_pred` boards if capacity
allows; a candidate found at full capacity `break`s; in every non-boarding
outcome the bus's `stopped` flag is cleared. -/
def board_scan (now : ℚ) (bus : Bus) (stop : BusStop) (acc : Acc) :
    Option (Bus × BusStop × Acc × List Event) :=
  match extractFirst (board_pred bus stop.name) stop.passengers with
  | some (p, rest) =>
    if (bus.passengers.length : Int) < bus.capacity then
      match pyUpdateAt acc.avg_wait_time (bucket_index now p.arrive_time) with
      | none => none
      | some hist =>
        let income' := acc.income + fare bus.rapid_express_local
        some ({ bus with
                  stopped := true,
                  passengers := bus.passengers ++ [p],
                  passenger_count := bus.passenger_count + 1 },
              { stop with passengers := rest },
              { acc with
                  avg_wait_time := hist,
                  passenger_count := acc.passenger_count + 1,
                  income := income',
                  revenue_list := acc.revenue_list
                    ++ [income' - acc.fixed_cost - acc.oil_cost],
                  plot_times := acc.plot_times
                    ++ [pyRound1 (now - acc.start_time)],
                  board_passengers := acc.board_passengers + 1 },
              [Event.boards p.name])
    else some ({ bus with stopped := false }, stop, acc, [])
  | none => some ({ bus with stopped := false }, stop, acc, [])

/-- Function `LinearBusRouteModel.stop_at`: one (bus, stop) encounter.  Alighting is
attempted first (only when the bus carries passengers); boarding only when
nobody alights.  `none` models the `IndexError` the histogram update can
raise. -/
def stop_at (now : ℚ) (bus : Bus) (stop : BusStop) (acc : Acc) :
    Option (Bus × BusStop × Acc × List Event) :=
  if bus.passengers.length ≠ 0 then
    let marked := mark_changed stop.name bus.passengers
    match extractFirst (alight_pred stop.name) marked with
    | some (p0, rest) =>
      let bus' := { bus with stopped := true, passengers := rest }
      if p0.change && !p0.changed_and_alight then
        let p0' := zero_dir bus.move { p0 with arrive_time := now }
        some (bus', { stop with passengers := stop.passengers ++ [p0'] },
              acc, [Event.changes p0.name])
      else
        some (bus', stop, acc, [Event.alights p0.name])
    | none => board_scan now { bus with passengers := marked } stop acc
  else if stop.passengers.length ≠ 0 then
    board_scan now bus stop acc
  else
    some ({ bus with stopped := false }, stop, acc, [])

/-- Function `LinearBusRouteModel.leave_stop`: the first waiting passenger whose wait
exceeds 12 is removed, a `LEFT` event emitted, the last histogram bucket
(`avg_wait_time[-1]`) and the abandonment counter incremented. -/
def leave_stop (acc : Acc) (now : ℚ) (stop : BusStop) :
    Option (BusStop × Acc × List Event) :=
  match extractFirst (fun p => decide (now - p.arrive_time > 12))
      stop.passengers with
  | none => some (stop, acc, [])
  | some (p, rest) =>
    match pyUpdateAt acc.avg_wait_time (-1) with
    | none => none
    | some hist =>
      some ({ stop with passengers := rest },
            { acc with
                avg_wait_time := hist,
                leave_passengers := acc.leave_passengers + 1 },
            [Event.left p.name])

/-- Accessor `get_wait`: the shared wait-time histogram accessor. -/
def get_wait (acc : Acc) : List Nat :=
  acc.avg_wait_time

/-- The transfer classification of `update_stop` (lines 685-698). -/
def transfer_change (stopName dest : String) : Bool :=
  if stopName == "Centre St"
      && (busstop_x.contains dest || busstop_y.contains dest) then false
  else if stopName == "North St"
      && (busstop_s.contains dest || busstop_y.contains dest) then false
  else if stopName == "Queens St"
      && (busstop_x.contains dest || busstop_s.contains dest) then false
  else if busstop_y.contains stopName && !busstop_y.contains dest then true
  else if busstop_x.contains stopName && !busstop_x.contains dest then true
  else if busstop_s.contains stopName && !busstop_s.contains dest then true
  else false

/-- The source's `if coord > coord: 1 elif coord < coord: -1` idiom: on
equality the local variable stays unassigned and passenger construction
raises `NameError`, modelled by `none`. -/
def cmp_dir (destCoord stopCoord : ℚ) : Option Int :=
  if stopCoord < destCoord then some 1
  else if destCoord < stopCoord then some (-1)
  else none

/-- The direction classification of `update_stop` (lines 702-858),
producing `(horizontal, vertical, inclined)` flags for a fresh passenger:
the explicit origin/destination pair table, then coordinate comparisons
keyed on whether the journey needs a transfer. -/
def classify_directions (stopName dest : String) (change : Bool) :
    Option (Int × Int × Int) :=
  if (stopName == "East St" && dest == "Harr St")
      || (stopName == "South St" && dest == "Kenn St") then some (-1, 1, -1)
  else if (stopName == "Harr St" && dest == "East St")
      || (stopName == "Kenn St" && dest == "South St") then some (1, -1, 1)
  else if stopName == "East St" && dest == "Steph St" then some (-1, 1, 1)
  else if stopName == "Steph St" && dest == "East St" then some (1, -1, -1)
  else if stopName == "Abbey St" && dest == "Steph St" then some (1, 1, 1)
  else if stopName == "Steph St" && dest == "Abbey St" then some (-1, -1, -1)
  else if stopName == "Harr St" && dest == "Centre St" then some (0, -1, 1)
  else if stopName == "Centre St" && dest == "Harr St" then some (0, 1, -1)
  else if stopName == "West St" && dest == "North St" then some (1, 0, 1)
  else if stopName == "North St" && dest == "West St" then some (-1, 0, -1)
  else if stopName == "Centre St" && dest == "East St" then some (1, 0, 0)
  else if stopName == "East St" && dest == "Centre St" then some (-1, 0, 0)
  else if stopName == "Centre St" && dest == "Steph St" then some (0, 1, 1)
  else if stopName == "Steph St" && dest == "Centre St" then some (0, -1, -1)
  else if (stopName == "Kenn St" && dest == "West St")
      || (stopName == "Abbey St" && dest == "Harr St") then some (-1, 0, 1)
  else if (stopName == "West St" && dest == "Kenn St")
      || (stopName == "Harr St" && dest == "Abbey St") then some (1, 0, -1)
  else if !change then
    let sc := busstop_coordinates stopName
    let dc := busstop_coordinates dest
    if (stopName == "Centre St" && busstop_y.contains dest)
        || (stopName == "North St" && busstop_y.contains dest) then
      (cmp_dir dc.2 sc.2).map fun v => (0, v, 0)
    else if (stopName == "Centre St" && busstop_x.contains dest)
        || (stopName == "Queens St" && busstop_x.contains dest) then
      (cmp_dir dc.1 sc.1).map fun h => (h, 0, 0)
    else if (stopName == "Queens St" && busstop_s.contains dest)
        || (stopName == "North St" && busstop_s.contains dest) then
      (cmp_dir dc.1 sc.1).map fun s => (0, 0, s)
    else if busstop_x.contains stopName then
      (cmp_dir dc.1 sc.1).map fun h => (h, 0, 0)
    else if busstop_s.contains stopName then
      (cmp_dir dc.1 sc.1).map fun s => (0, 0, s)
    else if busstop_y.contains stopName then
      (cmp_dir dc.2 sc.2).map fun v => (0, v, 0)
    else none
  else
    let sc := busstop_coordinates stopName
    let dc := busstop_coordinates dest
    if (busstop_y.contains stopName && busstop_x.contains dest)
        || (busstop_x.contains stopName && busstop_y.contains dest) then
      match cmp_dir dc.2 sc.2, cmp_dir dc.1 sc.1 with
      | some v, some h => some (h, v, 0)
      | _, _ => none
    else if (busstop_x.contains stopName && busstop_s.contains dest)
        || (busstop_s.contains stopName && busstop_x.contains dest) then
      match cmp_dir dc.1 sc.1, cmp_dir dc.1 sc.1 with
      | some s, some h => some (h, 0, s)
      | _, _ => none
    else if (busstop_y.contains stopName && busstop_s.contains dest)
        || (busstop_s.contains stopName && busstop_y.contains dest) then
      match cmp_dir dc.2 sc.2, cmp_dir dc.1 sc.1 with
      | some v, some s => some (0, v, s)
      | _, _ => none
    else none

/-- Function `LinearBusRouteModel.update_stop`: the stochastic arrival.  The random
draw (`rate > random.random()` plus the retry loop for
`random.choice(self.busstop)`) is an oracle input: `arrival = some dest`
with a valid `dest` is a successful draw, anything else is a tick without
an arrival at this stop. -/
def update_stop (acc : Acc) (now : ℚ) (arrival : Option String)
    (stop : BusStop) : Option (BusStop × Acc × List Event) :=
  match arrival with
  | none => some (stop, acc, [])
  | some destination =>
    if destination ≠ stop.name ∧ busstop_names.contains destination then
      let change := transfer_change stop.name destination
      match classify_directions stop.name destination change with
      | none => none
      | some (h, v, s) =>
        let nm := "random" ++ toString acc.passenger_num
        let p : BusPassenger :=
          { name := nm, source := stop.name, destination := destination,
            horizontal_direction := h, vertical_direction := v,
            inclined_direction := s, arrive_time := now,
            change := change, changed_and_alight := false }
        some ({ stop with passengers := stop.passengers ++ [p] },
              { acc with passenger_num := acc.passenger_num + 1 },
              [Event.waits nm])
    else some (stop, acc, [])

/-- The crossing test of the movement updates: strict on the near side,
inclusive on the far side, in the direction of travel (any direction other
than `1` takes the `else` branch, as in the source). -/
def crossing (direction : Int) (oldc newc c : ℚ) : Bool :=
  if direction = 1 then decide (oldc < c ∧ c ≤ newc)
  else decide (oldc > c ∧ c ≥ newc)

/-- Resolve a per-geometry stop-list entry against the master store (the
source's per-geometry lists alias the `BusStop` objects of `self.stops`). -/
def lookup_stop (n : String) : List BusStop → Option BusStop
  | [] => none
  | s :: ss => if s.name == n then some s else lookup_stop n ss

/-- Write a mutated stop back to the master store. -/
def set_stop (s' : BusStop) : List BusStop → List BusStop
  | [] => []
  | s :: ss => if s.name == s'.name then s' :: ss else s :: set_stop s' ss

/-- The stop loop shared by the three movement updates: every stop of the
bus's geometry whose coordinate the bus has just crossed is serviced by
`stop_at`, in list order.  `dir` is the bus's direction as read by the
loop (after any turnaround this tick). -/
def serve_stops (now : ℚ) (coord : BusStop → ℚ) (dir : Int)
    (oldc newc : ℚ) (bus : Bus) (m : Model) :
    List String → Option (Model × Bus × List Event)
  | [] => some (m, bus, [])
  | n :: ns =>
    match lookup_stop n m.stops with
    | none => serve_stops now coord dir oldc newc bus m ns
    | some stop =>
      if crossing dir oldc newc (coord stop) then
        match stop_at now bus stop m.acc with
        | none => none
        | some (bus', stop', acc', evs) =>
          match serve_stops now coord dir oldc newc bus'
              { m with stops := set_stop stop' m.stops, acc := acc' } ns with
          | none => none
          | some (m', bus'', evs') => some (m', bus'', evs ++ evs')
      else serve_stops now coord dir oldc newc bus m ns

/-- Function `LinearBusRouteModel.update_bus_hori`.  A moving bus advances by
`speed * direction` on x; exiting `[hori_start, hori_end]` flips the
direction and the `busdir['h']` sign, adds 2.5 to the oil cost and emits
`BUS_TURNS`; a stopped bus keeps its position but the crossing test runs
with the old coordinate synthetically decremented by one step. -/
def update_bus_hori (m : Model) (now : ℚ) (bus : Bus) :
    Option (Model × Bus × List Event) :=
  if bus.stopped = false then
    let old_x := bus.position.1
    let old_y := bus.position.2
    let new_x := old_x + bus.speed * (bus.direction : ℚ)
    let bus₁ : Bus := { bus with position := (new_x, old_y) }
    if ¬ (m.hori_start ≤ new_x ∧ new_x ≤ m.hori_end) then
      let bus₂ : Bus :=
        { bus₁ with direction := -bus₁.direction,
                    busdir := { bus₁.busdir with h := -bus₁.busdir.h } }
      let m₂ : Model :=
        { m with acc := { m.acc with oil_cost := m.acc.oil_cost + 5 / 2 } }
      match serve_stops now (fun s => s.position.1) bus₂.direction
          old_x new_x bus₂ m₂ m.hori_stops with
      | none => none
      | some (m', b', evs) => some (m', b', Event.bus_turns bus.name :: evs)
    else
      serve_stops now (fun s => s.position.1) bus₁.direction
        old_x new_x bus₁ m m.hori_stops
  else
    let old_x := bus.position.1 - bus.speed * (bus.direction : ℚ)
    let new_x := bus.position.1
    serve_stops now (fun s => s.position.1) bus.direction
      old_x new_x bus m m.hori_stops

/-- Function `LinearBusRouteModel.update_bus_vert`: as `update_bus_hori` on the y
coordinate with the `[vert_start, vert_end]` interval and `busdir['v']`. -/
def update_bus_vert (m : Model) (now : ℚ) (bus : Bus) :
    Option (Model × Bus × List Event) :=
  if bus.stopped = false then
    let old_x := bus.position.1
    let old_y := bus.position.2
    let new_y := old_y + bus.speed * (bus.direction : ℚ)
    let bus₁ : Bus := { bus with position := (old_x, new_y) }
    if ¬ (m.vert_start ≤ new_y ∧ new_y ≤ m.vert_end) then
      let bus₂ : Bus :=
        { bus₁ with direction := -bus₁.direction,
                    busdir := { bus₁.busdir with v := -bus₁.busdir.v } }
      let m₂ : Model :=
        { m with acc := { m.acc with oil_cost := m.acc.oil_cost + 5 / 2 } }
      match serve_stops now (fun s => s.position.2) bus₂.direction
          old_y new_y bus₂ m₂ m.vert_stops with
      | none => none
      | some (m', b', evs) => some (m', b', Event.bus_turns bus.name :: evs)
    else
      serve_stops now (fun s => s.position.2) bus₁.direction
        old_y new_y bus₁ m m.vert_stops
  else
    let old_y := bus.position.2 - bus.speed * (bus.direction : ℚ)
    let new_y := bus.position.2
    serve_stops now (fun s => s.position.2) bus.direction
      old_y new_y bus m m.vert_stops

/-- Function `LinearBusRouteModel.update_bus_s`: diagonal movement with the free
y coordinate clamped to the plateaus `30` and `-20`, pure horizontal
movement while pinned to a plateau past its x bound (`> 55` on top,
`< 5` at the bottom), and turnaround on the x extent
`[s_start, s_end]` with `busdir['s']`. -/
def update_bus_s (m : Model) (now : ℚ) (bus : Bus) :
    Option (Model × Bus × List Event) :=
  if bus.stopped = false then
    let old_x := bus.position.1
    let oy := bus.position.2
    let old_y : ℚ := if oy ≥ 30 then 30 else if oy ≤ -20 then -20 else oy
    let new_x := old_x + bus.speed * (bus.direction : ℚ)
    let new_y : ℚ :=
      if old_y ≥ 30 ∧ old_x > 55 then 30
      else if old_y ≤ -20 ∧ old_x < 5 then -20
      else
        let ny := old_y + bus.speed * (bus.direction : ℚ)
        if ny ≥ 30 then 30 else if ny ≤ -20 then -20 else ny
    let bus₁ : Bus := { bus with position := (new_x, new_y) }
    if ¬ (m.s_start ≤ new_x ∧ new_x ≤ m.s_end) then
      let bus₂ : Bus :=
        { bus₁ with direction := -bus₁.direction,
                    busdir := { bus₁.busdir with s := -bus₁.busdir.s } }
      let m₂ : Model :=
        { m with acc := { m.acc with oil_cost := m.acc.oil_cost + 5 / 2 } }
      match serve_stops now (fun s => s.position.1) bus₂.direction
          old_x new_x bus₂ m₂ m.s_stops with
      | none => none
      | some (m', b', evs) => some (m', b', Event.bus_turns bus.name :: evs)
    else
      serve_stops now (fun s => s.position.1) bus₁.direction
        old_x new_x bus₁ m m.s_stops
  else
    let old_x := bus.position.1 - bus.speed * (bus.direction : ℚ)
    let new_x := bus.position.1
    serve_stops now (fun s => s.position.1) bus.direction
      old_x new_x bus m m.s_stops

/-- The per-bus dispatch of `LinearBusRouteModel.update`. -/
def update_bus (m : Model) (now : ℚ) (bus : Bus) :
    Option (Model × Bus × List Event) :=
  match bus.move with
  | .h => update_bus_hori m now bus
  | .v => update_bus_vert m now bus
  | .s => update_bus_s m now bus

/-- Loop `for bus in self.buses`: each bus object is updated in place; the
list itself is rebuilt with the updated objects in order. -/
def update_buses (m : Model) (now : ℚ) :
    List Bus → Option (Model × List Bus × List Event)
  | [] => some (m, [], [])
  | b :: bs =>
    match update_bus m now b with
    | none => none
    | some (m₁, b', ev₁) =>
      match update_buses m₁ now bs with
      | none => none
      | some (m₂, bs', ev₂) => some (m₂, b' :: bs', ev₁ ++ ev₂)

/-- Loop `for stop in self.stops: events += self.update_stop(stop)`. -/
def arrivals_phase (now : ℚ) (arr : String → Option String) :
    List BusStop → Acc → Option (List BusStop × Acc × List Event)
  | [], acc => some ([], acc, [])
  | st :: rest, acc =>
    match update_stop acc now (arr st.name) st with
    | none => none
    | some (st', acc', ev₁) =>
      match arrivals_phase now arr rest acc' with
      | none => none
      | some (rest', acc'', ev₂) => some (st' :: rest', acc'', ev₁ ++ ev₂)

/-- Loop `for stop in self.stops: events += self.leave_stop(stop)`. -/
def leave_phase (now : ℚ) :
    List BusStop → Acc → Option (List BusStop × Acc × List Event)
  | [], acc => some ([], acc, [])
  | st :: rest, acc =>
    match leave_stop acc now st with
    | none => none
    | some (st', acc', ev₁) =>
      match leave_phase now rest acc' with
      | none => none
      | some (rest', acc'', ev₂) => some (st' :: rest', acc'', ev₁ ++ ev₂)

/-- The per-tick oracle: the wall-clock instant of the tick and, per stop
name, the outcome of the stochastic arrival draw. -/
structure TickInput where
  now : ℚ
  arrivals : String → Option String

/-- Function `LinearBusRouteModel.update`: movement (with stop servicing) for every
bus, then arrivals for every stop, then abandonment for every stop. -/
def update (m : Model) (inp : TickInput) : Option (Model × List Event) :=
  match update_buses m inp.now m.buses with
  | none => none
  | some (m₁, buses', ev₁) =>
    match arrivals_phase inp.now inp.arrivals m₁.stops m₁.acc with
    | none => none
    | some (stops₂, acc₂, ev₂) =>
      match leave_phase inp.now stops₂ acc₂ with
      | none => none
      | some (stops₃, acc₃, ev₃) =>
        some ({ m₁ with buses := buses', stops := stops₃, acc := acc₃ },
              ev₁ ++ ev₂ ++ ev₃)

/-- Iterated ticks. -/
def run (m : Model) : List TickInput → Option Model
  | [] => some m
  | i :: is =>
    match update m i with
    | none => none
    | some (m', _) => run m' is

/-- The dynamic content of `BusStop.__init__`'s validation: every passenger
placed at a stop must have it as its source (`'passenger at the wrong
stop'`); the type checks of the source are subsumed by this embedding's
types. -/
def busStop_init (name : String) (position : ℚ × ℚ)
    (passengers : List BusPassenger) : Option BusStop :=
  if passengers.all (fun p => p.source == name) then
    some { name := name, position := position, passengers := passengers }
  else none

/-- The dynamic content of `Bus.__init__`'s validation: direction in
`{1, -1}`, integral coordinates, vertical buses at `x = 75`, horizontal
buses at `y = 0`.  No relation between `capacity` and the initial
passenger list is checked. -/
def bus_init (name : String) (position : ℚ × ℚ) (direction : Int)
    (speed : ℚ) (passengers : List BusPassenger) (stopped : Bool)
    (stations : List String) (move : MoveKind) (cls : ServiceClass)
    (capacity : Int) (pcount : Nat) (busdir : Busdir) : Option Bus :=
  if (direction = 1 ∨ direction = -1)
      ∧ position.1.den = 1 ∧ position.2.den = 1
      ∧ (move = .v → position.1 = 75)
      ∧ (move = .h → position.2 = 0) then
    some { name := name, position := position, direction := direction,
           speed := speed, passengers := passengers, stopped := stopped,
           stations := stations, move := move, rapid_express_local := cls,
           capacity := capacity, passenger_count := pcount, busdir := busdir }
  else none

/-- The bus attributes `stop_at` never writes (everything except
`passengers`, `stopped` and `passenger_count`). -/
def busFrame (b b' : Bus) : Prop :=
  b'.position = b.position ∧ b'.direction = b.direction
    ∧ b'.speed = b.speed ∧ b'.move = b.move ∧ b'.capacity = b.capacity
    ∧ b'.busdir = b.busdir ∧ b'.stations = b.stations
    ∧ b'.rapid_express_local = b.rapid_express_local ∧ b'.name = b.name

/-- The model attributes no tick phase ever writes: the six geometry bounds
and the three per-geometry stop lists. -/
def geomFrame (m m' : Model) : Prop :=
  m'.vert_start = m.vert_start ∧ m'.vert_end = m.vert_end
    ∧ m'.hori_start = m.hori_start ∧ m'.hori_end = m.hori_end
    ∧ m'.s_start = m.s_start ∧ m'.s_end = m.s_end
    ∧ m'.hori_stops = m.hori_stops ∧ m'.vert_stops = m.vert_stops
    ∧ m'.s_stops = m.s_stops

/-- Capacity invariant: every bus carries at most `capacity` passengers. -/
def capInv (m : Model) : Prop :=
  ∀ b ∈ m.buses, (b.passengers.length : Int) ≤ b.capacity

/-- Stop-location invariant: every passenger held by a stop records that
stop as its `source`, the property `BusStop.__init__` validates. -/
def stopInv (stop : BusStop) : Prop :=
  ∀ p ∈ stop.passengers, p.source = stop.name

/-- The free coordinate of a bus's geometry (x for `'h'` and `'s'`, y for
`'v'`). -/
def free_coord : MoveKind → ℚ × ℚ → ℚ
  | .h, pos => pos.1
  | .v, pos => pos.2
  | .s, pos => pos.1

/-- The lower bound of a geometry's configured interval. -/
def geo_lo (m : Model) : MoveKind → ℚ
  | .h => m.hori_start
  | .v => m.vert_start
  | .s => m.s_start

/-- The upper bound of a geometry's configured interval. -/
def geo_hi (m : Model) : MoveKind → ℚ
  | .h => m.hori_end
  | .v => m.vert_end
  | .s => m.s_end

/-- Position invariant on one axis: the coordinate is in the configured
interval, or has overshot one end by at most one speed step with the
direction already flipped to point back inward. -/
def posInvAx (lo hi speed : ℚ) (dir : Int) (c : ℚ) : Prop :=
  (lo ≤ c ∧ c ≤ hi)
    ∨ (hi < c ∧ c ≤ hi + speed ∧ dir = -1)
    ∨ (c < lo ∧ lo - speed ≤ c ∧ dir = 1)

/-- Per-bus movement invariant: nonnegative speed, unit direction, the
free-axis position invariant, and for inclined buses the clamped y
coordinate between the plateaus. -/
def bus_ok (m : Model) (b : Bus) : Prop :=
  0 ≤ b.speed ∧ (b.direction = 1 ∨ b.direction = -1)
    ∧ posInvAx (geo_lo m b.move) (geo_hi m b.move) b.speed b.direction
        (free_coord b.move b.position)
    ∧ (b.move = .s → -20 ≤ b.position.2 ∧ b.position.2 ≤ 30)

/-- Non-degenerate geometry bounds. -/
def bounds_ok (m : Model) : Prop :=
  m.vert_start ≤ m.vert_end ∧ m.hori_start ≤ m.hori_end
    ∧ m.s_start ≤ m.s_end

/-- Movement invariant for the whole model. -/
def buses_ok (m : Model) : Prop :=
  bounds_ok m ∧ ∀ b ∈ m.buses, bus_ok m b

/-- Boarding eligibility as worded by the spec (§4.2), for comparison
with the code's scan: *rapid* — destination and stop both among the bus's
recognized stations, or destination not on the bus's own geometry axis
while the stop is a recognized station; *express* — both stop and
destination recognized; *local* — no station restriction; in every class
the passenger's direction flag for the bus's geometry must equal the
bus's sign-table entry for that geometry. -/
def boarding_eligible_spec (bus : Bus) (stopName : String)
    (p : BusPassenger) : Prop :=
  (match bus.rapid_express_local with
   | .r => (p.destination ∈ bus.stations ∧ stopName ∈ bus.stations)
       ∨ (p.destination ∉ axis_stops bus.move ∧ stopName ∈ bus.stations)
   | .e => p.destination ∈ bus.stations ∧ stopName ∈ bus.stations
   | .l => True)
  ∧ pax_dir bus.move p = busdir_get bus.move bus.busdir

/-! ### Concrete configurations used to evaluate the theorems -/

/-- A fresh accumulator state as `init` sets it up for a one-bus network
(`fixed_cost` 25 per bus, nine-bucket histogram). -/
def acc0 : Acc :=
  { start_time := 0, revenue_list := [], plot_times := [],
    avg_wait_time := [0, 0, 0, 0, 0, 0, 0, 0, 0], passenger_count := 0,
    passenger_num := 0, board_passengers := 0, leave_passengers := 0,
    income := 0, fixed_cost := 25, oil_cost := 0 }

/-- A passenger waiting at West St for an eastbound horizontal bus. -/
def pax_pam : BusPassenger :=
  { name := "Pam", source := "West St", destination := "East St",
    horizontal_direction := 1, vertical_direction := 0,
    inclined_direction := 0, arrive_time := 94, change := false,
    changed_and_alight := false }

def stop_west : BusStop :=
  { name := "West St", position := (0, 0), passengers := [pax_pam] }

/-- An empty eastbound local bus on the horizontal geometry. -/
def bus_local_h : Bus :=
  { name := "L1", position := (0, 0), direction := 1, speed := 3 / 2,
    passengers := [], stopped := false, stations := [], move := .h,
    rapid_express_local := .l, capacity := 10, passenger_count := 0,
    busdir := { h := 1, v := 0, s := 0 } }

/-- A transferring passenger riding a vertical bus, bound for East St via
the Centre St hub (needs both the vertical and horizontal geometries). -/
def pax_dov : BusPassenger :=
  { name := "Dov", source := "South St", destination := "East St",
    horizontal_direction := 1, vertical_direction := 1,
    inclined_direction := 0, arrive_time := 90, change := true,
    changed_and_alight := false }

def stop_centre : BusStop :=
  { name := "Centre St", position := (75, 0), passengers := [] }

/-- A northbound local bus on the vertical geometry carrying `pax_dov`. -/
def bus_vert_l : Bus :=
  { name := "L2", position := (75, 0), direction := 1, speed := 3 / 2,
    passengers := [pax_dov], stopped := false, stations := [], move := .v,
    rapid_express_local := .l, capacity := 10, passenger_count := 1,
    busdir := { h := 0, v := 1, s := 0 } }

def pax_a : BusPassenger :=
  { name := "A", source := "West St", destination := "East St",
    horizontal_direction := 1, vertical_direction := 0,
    inclined_direction := 0, arrive_time := 0, change := false,
    changed_and_alight := false }

def pax_b : BusPassenger :=
  { name := "B", source := "West St", destination := "East St",
    horizontal_direction := 1, vertical_direction := 0,
    inclined_direction := 0, arrive_time := 0, change := false,
    changed_and_alight := false }

/-- A bus the `Bus.__init__` checks accept although it starts with two
passengers against a capacity of one. -/
def c1bus : Bus :=
  { name := "O1", position := (10, 0), direction := 1, speed := 1,
    passengers := [pax_a, pax_b], stopped := false, stations := [],
    move := .h, rapid_express_local := .l, capacity := 1,
    passenger_count := 2, busdir := { h := 1, v := 0, s := 0 } }

def c1model : Model :=
  { vert_start := -30, vert_end := 30, hori_start := 0, hori_end := 100,
    s_start := 0, s_end := 100, stops := [], hori_stops := [],
    vert_stops := [], s_stops := [], buses := [c1bus], acc := acc0 }

/-- An eastbound horizontal bus one tick away from overrunning the route
end at 100. -/
def c7bus : Bus :=
  { name := "H1", position := (99, 0), direction := 1, speed := 2,
    passengers := [], stopped := false, stations := [], move := .h,
    rapid_express_local := .l, capacity := 10, passenger_count := 0,
    busdir := { h := 1, v := 0, s := 0 } }

def c7model : Model :=
  { vert_start := -30, vert_end := 30, hori_start := 0, hori_end := 100,
    s_start := 0, s_end := 100, stops := [], hori_stops := [],
    vert_stops := [], s_stops := [], buses := [c7bus], acc := acc0 }

/-- A tick with no stochastic arrivals. -/
def tick0 : TickInput :=
  { now := 100, arrivals := fun _ => none }

/-- The result of the boarding encounter between `bus_local_h` and
`stop_west`. -/
def boardEx : Bus × BusStop × Acc × List Event :=
  (stop_at 100 bus_local_h stop_west acc0).getD
    (bus_local_h, stop_west, acc0, [])

/-- The result of the transfer encounter between `bus_vert_l` and
`stop_centre`. -/
def changeEx : Bus × BusStop × Acc × List Event :=
  (stop_at 100 bus_vert_l stop_centre acc0).getD
    (bus_vert_l, stop_centre, acc0, [])

/-- The result of the `c7bus` turnaround tick. -/
def turnEx : Model × Bus × List Event :=
  (update_bus c7model 100 c7bus).getD (c7model, c7bus, [])

/-- The model after one tick of `c7model`. -/
def runEx : Model :=
  (run c7model [tick0]).getD c7model

/-- The model after one tick of `c1model`. -/
def runC1Ex : Model :=
  (run c1model [tick0]).getD c1model

/-! ## Theorems -/

theorem extractFirst_eq_none {p : α → Bool} {l : List α} :
    extractFirst p l = none ↔ ∀ x ∈ l, p x = false := by
  induction l with
  | nil => simp [extractFirst]
  | cons x xs ih =>
    by_cases hx : p x <;> simp [extractFirst, hx, ih, Option.map_eq_none']

theorem extractFirst_eq_some {p : α → Bool} {l : List α} {y : α}
    {ys : List α} (h : extractFirst p l = some (y, ys)) :
    ∃ l₁ l₂, l = l₁ ++ y :: l₂ ∧ ys = l₁ ++ l₂ ∧ p y = true ∧
      ∀ x ∈ l₁, p x = false := by
  induction l generalizing ys with
  | nil => simp [extractFirst] at h
  | cons x xs ih =>
    by_cases hx : p x
    · simp only [extractFirst, hx, if_pos] at h
      obtain ⟨rfl, rfl⟩ := Prod.mk.injEq .. ▸ Option.some.injEq .. ▸ h
      exact ⟨[], xs, by simp, by simp, hx, by simp⟩
    · simp only [extractFirst, hx, if_neg, Bool.false_eq_true,
        not_false_iff, Option.map_eq_some'] at h
      obtain ⟨⟨y', ys'⟩, hy, hmk⟩ := h
      obtain ⟨hy1, hy2⟩ := Prod.mk.injEq .. ▸ hmk
      subst hy1
      obtain ⟨l₁, l₂, rfl, rfl, hpy, hl₁⟩ := ih hy
      refine ⟨x :: l₁, l₂, by simp, by simp [hy2.symm], hpy, ?_⟩
      intro z hz
      rcases List.mem_cons.mp hz with rfl | hz
      · simpa using hx
      · exact hl₁ z hz

theorem extractFirst_of_split {p : α → Bool} {l₁ l₂ : List α} {y : α}
    (h₁ : ∀ x ∈ l₁, p x = false) (hy : p y = true) :
    extractFirst p (l₁ ++ y :: l₂) = some (y, l₁ ++ l₂) := by
  induction l₁ with
  | nil => simp [extractFirst, hy]
  | cons x xs ih =>
    have hx : p x = false := h₁ x (by simp)
    simp only [List.cons_append, extractFirst, hx, Bool.false_eq_true,
      if_neg, not_false_iff, List.append_eq]
    rw [ih (fun z hz => h₁ z (by simp [hz]))]
    rfl

theorem extractFirst_length {p : α → Bool} {l : List α} {y : α}
    {ys : List α} (h : extractFirst p l = some (y, ys)) :
    ys.length + 1 = l.length := by
  obtain ⟨l₁, l₂, rfl, rfl, -, -⟩ := extractFirst_eq_some h
  simp
  omega

theorem pyUpdateAt_length {l l' : List Nat} {i : Int}
    (h : pyUpdateAt l i = some l') : l'.length = l.length := by
  unfold pyUpdateAt at h
  cases hj : pyIndex l.length i with
  | none => rw [hj] at h; exact absurd h (by simp)
  | some j => rw [hj] at h; simp only [Option.some.injEq] at h; simp [← h]

/-- Exhaustive description of `board_scan`'s successful outcomes: either a
clean no-board outcome with the `stopped` flag cleared and no event, or the
first candidate boards below capacity. -/
theorem board_scan_cases {now : ℚ} {bus : Bus} {stop : BusStop} {acc : Acc}
    {bus' : Bus} {stop' : BusStop} {acc' : Acc} {evs : List Event}
    (h : board_scan now bus stop acc = some (bus', stop', acc', evs)) :
    (evs = [] ∧ bus' = { bus with stopped := false } ∧ stop' = stop
       ∧ acc' = acc
       ∧ ((bus.passengers.length : Int) < bus.capacity →
            extractFirst (board_pred bus stop.name) stop.passengers = none))
    ∨ (∃ p rest hist,
        extractFirst (board_pred bus stop.name) stop.passengers
            = some (p, rest)
        ∧ (bus.passengers.length : Int) < bus.capacity
        ∧ pyUpdateAt acc.avg_wait_time (bucket_index now p.arrive_time)
            = some hist
        ∧ bus' = { bus with
                     stopped := true,
                     passengers := bus.passengers ++ [p],
                     passenger_count := bus.passenger_count + 1 }
        ∧ stop' = { stop with passengers := rest }
        ∧ acc' = { acc with
                     avg_wait_time := hist,
                     passenger_count := acc.passenger_count + 1,
                     income := acc.income + fare bus.rapid_express_local,
                     revenue_list := acc.revenue_list
                       ++ [acc.income + fare bus.rapid_express_local
                             - acc.fixed_cost - acc.oil_cost],
                     plot_times := acc.plot_times
                       ++ [pyRound1 (now - acc.start_time)],
                     board_passengers := acc.board_passengers + 1 }
        ∧ evs = [Event.boards p.name]) := by
  unfold board_scan at h
  split at h
  case h_2 hext =>
    simp only [Option.some.injEq, Prod.mk.injEq] at h
    obtain ⟨h1, h2, h3, h4⟩ := h
    exact Or.inl ⟨h4.symm, h1.symm, h2.symm, h3.symm, fun _ => hext⟩
  case h_1 p rest hext =>
    split at h
    case isTrue hcap =>
      split at h
      case h_1 => exact absurd h (by simp)
      case h_2 hist hupd =>
        simp only [Option.some.injEq, Prod.mk.injEq] at h
        obtain ⟨h1, h2, h3, h4⟩ := h
        exact Or.inr ⟨p, rest, hist, hext, hcap, hupd,
          h1.symm, h2.symm, h3.symm, h4.symm⟩
    case isFalse hcap =>
      simp only [Option.some.injEq, Prod.mk.injEq] at h
      obtain ⟨h1, h2, h3, h4⟩ := h
      exact Or.inl ⟨h4.symm, h1.symm, h2.symm, h3.symm,
        fun hc => absurd hc hcap⟩

/-- Lemma: `stop_at` unfolded to its two live paths: the source's three-way branch
on bus/stop emptiness collapses because boarding from an empty waiting list
and the both-empty fall-through produce the same no-action outcome. -/
theorem stop_at_eq (now : ℚ) (bus : Bus) (stop : BusStop) (acc : Acc) :
    stop_at now bus stop acc =
      match extractFirst (alight_pred stop.name)
          (mark_changed stop.name bus.passengers) with
      | some (p0, rest) =>
        if p0.change && !p0.changed_and_alight then
          some ({ bus with stopped := true, passengers := rest },
                { stop with
                    passengers := stop.passengers
                      ++ [zero_dir bus.move { p0 with arrive_time := now }] },
                acc, [Event.changes p0.name])
        else
          some ({ bus with stopped := true, passengers := rest },
                stop, acc, [Event.alights p0.name])
      | none =>
        board_scan now
          { bus with passengers := mark_changed stop.name bus.passengers }
          stop acc := by
  by_cases hne : bus.passengers.length = 0
  · have hbp : bus.passengers = [] := List.length_eq_zero.mp hne
    rw [hbp]
    show stop_at now bus stop acc
        = board_scan now { bus with passengers := ([] : List BusPassenger) }
            stop acc
    have hbus2 : ({ bus with
        passengers := ([] : List BusPassenger) } : Bus) = bus := by
      conv_lhs => rw [← hbp]
    rw [hbus2]
    unfold stop_at
    rw [if_neg (not_not_intro hne)]
    by_cases hsne : stop.passengers.length = 0
    · rw [if_neg (not_not_intro hsne)]
      have hsp : stop.passengers = [] := List.length_eq_zero.mp hsne
      unfold board_scan
      rw [show extractFirst (board_pred bus stop.name) stop.passengers = none
        from by rw [hsp]; rfl]
    · rw [if_pos hsne]
  · unfold stop_at
    rw [if_pos hne]

theorem mark_changed_length (s : String) (l : List BusPassenger) :
    (mark_changed s l).length = l.length := by
  simp [mark_changed]

/-- Frame conditions of one `stop_at` call: the bus's kinematic attributes,
the turnaround/abandonment accumulators, the event tags it can emit, and
the capacity bound. -/
theorem stop_at_frame {now : ℚ} {bus : Bus} {stop : BusStop} {acc : Acc}
    {bus' : Bus} {stop' : BusStop} {acc' : Acc} {evs : List Event}
    (h : stop_at now bus stop acc = some (bus', stop', acc', evs)) :
    busFrame bus bus'
    ∧ acc'.oil_cost = acc.oil_cost
    ∧ acc'.leave_passengers = acc.leave_passengers
    ∧ (∀ e ∈ evs, e.isBusTurns = false ∧ e.isLeftEv = false
        ∧ e.isWaits = false)
    ∧ ((bus.passengers.length : Int) ≤ bus.capacity →
        (bus'.passengers.length : Int) ≤ bus.capacity)
    ∧ (bus.passengers.length < bus'.passengers.length →
        (bus.passengers.length : Int) < bus.capacity) := by
  rw [stop_at_eq] at h
  split at h
  case h_1 p0 rest hext =>
    have hlen : rest.length + 1 = bus.passengers.length := by
      rw [extractFirst_length hext, mark_changed_length]
    split at h <;>
    · simp only [Option.some.injEq, Prod.mk.injEq] at h
      obtain ⟨h1, h2, h3, h4⟩ := h
      subst h1; subst h2; subst h3; subst h4
      refine ⟨⟨rfl, rfl, rfl, rfl, rfl, rfl, rfl, rfl, rfl⟩, rfl, rfl,
        ?_, ?_, ?_⟩
      · intro e he
        simp only [List.mem_singleton] at he
        subst he
        exact ⟨rfl, rfl, rfl⟩
      · intro hcap
        simp only
        omega
      · intro hlt
        simp only at hlt
        omega
  case h_2 hext =>
    rcases board_scan_cases h with
      ⟨hevs, hbus, hstop, hacc, -⟩ | ⟨p, rest, hist, -, hcap, -, hbus, -, hacc, hevs⟩
    · subst hevs; subst hbus; subst hstop; subst hacc
      refine ⟨⟨rfl, rfl, rfl, rfl, rfl, rfl, rfl, rfl, rfl⟩, rfl, rfl,
        by simp, ?_, ?_⟩
      · intro hcap
        simpa [mark_changed_length] using hcap
      · intro hlt
        simp only [mark_changed_length] at hlt
        omega
    · subst hbus; subst hacc; subst hevs
      simp only [mark_changed_length] at hcap
      refine ⟨⟨rfl, rfl, rfl, rfl, rfl, rfl, rfl, rfl, rfl⟩, rfl, rfl,
        ?_, ?_, ?_⟩
      · intro e he
        simp only [List.mem_singleton] at he
        subst he
        exact ⟨rfl, rfl, rfl⟩
      · intro _
        simp only [List.length_append, mark_changed_length,
          List.length_singleton]
        push_cast
        omega
      · intro _
        exact hcap

theorem busFrame_rfl (b : Bus) : busFrame b b :=
  ⟨rfl, rfl, rfl, rfl, rfl, rfl, rfl, rfl, rfl⟩

theorem busFrame_trans {a b c : Bus} (h1 : busFrame a b)
    (h2 : busFrame b c) : busFrame a c := by
  obtain ⟨a1, a2, a3, a4, a5, a6, a7, a8, a9⟩ := h1
  obtain ⟨b1, b2, b3, b4, b5, b6, b7, b8, b9⟩ := h2
  exact ⟨b1.trans a1, b2.trans a2, b3.trans a3, b4.trans a4, b5.trans a5,
    b6.trans a6, b7.trans a7, b8.trans a8, b9.trans a9⟩

theorem geomFrame_rfl (m : Model) : geomFrame m m :=
  ⟨rfl, rfl, rfl, rfl, rfl, rfl, rfl, rfl, rfl⟩

theorem geomFrame_trans {a b c : Model} (h1 : geomFrame a b)
    (h2 : geomFrame b c) : geomFrame a c := by
  obtain ⟨a1, a2, a3, a4, a5, a6, a7, a8, a9⟩ := h1
  obtain ⟨b1, b2, b3, b4, b5, b6, b7, b8, b9⟩ := h2
  exact ⟨b1.trans a1, b2.trans a2, b3.trans a3, b4.trans a4, b5.trans a5,
    b6.trans a6, b7.trans a7, b8.trans a8, b9.trans a9⟩

/-- Frame conditions of the stop-servicing loop of a movement update. -/
theorem serve_stops_frame {now : ℚ} {coord : BusStop → ℚ} {dir : Int}
    {oldc newc : ℚ} {bus : Bus} {m : Model} {names : List String}
    {m' : Model} {bus' : Bus} {evs : List Event}
    (h : serve_stops now coord dir oldc newc bus m names
        = some (m', bus', evs)) :
    busFrame bus bus' ∧ geomFrame m m'
    ∧ m'.acc.oil_cost = m.acc.oil_cost
    ∧ m'.buses = m.buses
    ∧ (∀ e ∈ evs, e.isBusTurns = false)
    ∧ ((bus.passengers.length : Int) ≤ bus.capacity →
        (bus'.passengers.length : Int) ≤ bus'.capacity) := by
  induction names generalizing bus m evs with
  | nil =>
    simp only [serve_stops, Option.some.injEq, Prod.mk.injEq] at h
    obtain ⟨h1, h2, h3⟩ := h
    subst h1; subst h2; subst h3
    exact ⟨busFrame_rfl bus, geomFrame_rfl m, rfl, rfl, by simp,
      fun hc => hc⟩
  | cons n ns ih =>
    unfold serve_stops at h
    split at h
    case h_1 => exact ih h
    case h_2 stop hlook =>
      split at h
      case isFalse => exact ih h
      case isTrue hcross =>
        split at h
        case h_1 => exact absurd h (by simp)
        case h_2 bus₁ stop₁ acc₁ evs₁ hst =>
          split at h
          case h_1 => exact absurd h (by simp)
          case h_2 m₂ bus₂ evs₂ hserve =>
            simp only [Option.some.injEq, Prod.mk.injEq] at h
            obtain ⟨h1, h2, h3⟩ := h
            subst h1; subst h2; subst h3
            obtain ⟨hbf1, hoil1, -, hevs1, hcap1, -⟩ := stop_at_frame hst
            obtain ⟨hbf2, hgf2, hoil2, hbuses2, hevs2, hcap2⟩ := ih hserve
            refine ⟨busFrame_trans hbf1 hbf2,
              geomFrame_trans (geomFrame_rfl _) hgf2,
              by rw [hoil2]; exact hoil1,
              hbuses2,
              ?_, ?_⟩
            · intro e he
              rcases List.mem_append.mp he with h1 | h2
              · exact (hevs1 e h1).1
              · exact hevs2 e h2
            · intro hc
              have hc1 : (bus₁.passengers.length : Int) ≤ bus₁.capacity := by
                rw [hbf1.2.2.2.2.1]
                exact hcap1 hc
              exact hcap2 hc1

theorem countP_busTurns_zero {evs : List Event}
    (h : ∀ e ∈ evs, e.isBusTurns = false) :
    evs.countP Event.isBusTurns = 0 := by
  rw [List.countP_eq_zero]
  intro e he
  simp [h e he]

/-- Shape of one `update_bus_hori` call: geometry frame, kinematics of the
moving/stopped/turning cases, oil cost and `BUS_TURNS` event count. -/
theorem update_bus_hori_shape {m : Model} {now : ℚ} {bus : Bus}
    {m' : Model} {bus' : Bus} {evs : List Event}
    (h : update_bus_hori m now bus = some (m', bus', evs)) :
    geomFrame m m' ∧ m'.buses = m.buses
    ∧ bus'.speed = bus.speed ∧ bus'.move = bus.move
    ∧ bus'.capacity = bus.capacity
    ∧ ((bus.passengers.length : Int) ≤ bus.capacity →
        (bus'.passengers.length : Int) ≤ bus'.capacity)
    ∧ (bus.stopped = true →
        bus'.position = bus.position ∧ bus'.direction = bus.direction
        ∧ bus'.busdir = bus.busdir
        ∧ m'.acc.oil_cost = m.acc.oil_cost
        ∧ evs.countP Event.isBusTurns = 0)
    ∧ (bus.stopped = false →
        bus'.position
          = (bus.position.1 + bus.speed * bus.direction, bus.position.2)
        ∧ ((m.hori_start ≤ bus.position.1 + bus.speed * bus.direction
              ∧ bus.position.1 + bus.speed * bus.direction ≤ m.hori_end) →
            bus'.direction = bus.direction ∧ bus'.busdir = bus.busdir
            ∧ m'.acc.oil_cost = m.acc.oil_cost
            ∧ evs.countP Event.isBusTurns = 0)
        ∧ (¬ (m.hori_start ≤ bus.position.1 + bus.speed * bus.direction
              ∧ bus.position.1 + bus.speed * bus.direction ≤ m.hori_end) →
            bus'.direction = -bus.direction
            ∧ bus'.busdir = { bus.busdir with h := -bus.busdir.h }
            ∧ m'.acc.oil_cost = m.acc.oil_cost + 5 / 2
            ∧ evs.countP Event.isBusTurns = 1)) := by
  unfold update_bus_hori at h
  split at h
  case isTrue hstop =>
    simp only [] at h
    split at h
    case isTrue hout =>
      split at h
      case h_1 => exact absurd h (by simp)
      case h_2 mₛ bₛ evsₛ hserve =>
        simp only [Option.some.injEq, Prod.mk.injEq] at h
        obtain ⟨h1, h2, h3⟩ := h
        subst h1; subst h2; subst h3
        obtain ⟨hbf, hgf, hoil, hbuses, hevs, hcap⟩ :=
          serve_stops_frame hserve
        obtain ⟨hp, hd, hsp, hmv, hcp, hbd, -, -, -⟩ := hbf
        refine ⟨hgf, hbuses, hsp, hmv, hcp, hcap,
          fun habs => absurd hstop (by simp [habs]), fun _ => ?_⟩
        refine ⟨hp, fun hin => absurd hin hout, fun _ => ?_⟩
        exact ⟨hd, hbd, by rw [hoil],
          by rw [List.countP_cons_of_pos _ _ (by rfl),
            countP_busTurns_zero hevs]⟩
    case isFalse hout =>
      obtain ⟨hbf, hgf, hoil, hbuses, hevs, hcap⟩ := serve_stops_frame h
      obtain ⟨hp, hd, hsp, hmv, hcp, hbd, -, -, -⟩ := hbf
      refine ⟨hgf, hbuses, hsp, hmv, hcp, hcap,
        fun habs => absurd hstop (by simp [habs]), fun _ => ?_⟩
      refine ⟨hp, fun _ => ⟨hd, hbd, hoil, countP_busTurns_zero hevs⟩,
        fun hnin => absurd (not_not.mp hout) hnin⟩
  case isFalse hstop =>
    have hstop' : bus.stopped = true := by
      cases hb : bus.stopped
      · exact absurd hb hstop
      · rfl
    simp only [] at h
    obtain ⟨hbf, hgf, hoil, hbuses, hevs, hcap⟩ := serve_stops_frame h
    obtain ⟨hp, hd, hsp, hmv, hcp, hbd, -, -, -⟩ := hbf
    exact ⟨hgf, hbuses, hsp, hmv, hcp, hcap,
      fun _ => ⟨hp, hd, hbd, hoil, countP_busTurns_zero hevs⟩,
      fun habs => absurd hstop' (by simp [habs])⟩

/-- Shape of one `update_bus_vert` call (the y-axis analogue of
`update_bus_hori_shape`). -/
theorem update_bus_vert_shape {m : Model} {now : ℚ} {bus : Bus}
    {m' : Model} {bus' : Bus} {evs : List Event}
    (h : update_bus_vert m now bus = some (m', bus', evs)) :
    geomFrame m m' ∧ m'.buses = m.buses
    ∧ bus'.speed = bus.speed ∧ bus'.move = bus.move
    ∧ bus'.capacity = bus.capacity
    ∧ ((bus.passengers.length : Int) ≤ bus.capacity →
        (bus'.passengers.length : Int) ≤ bus'.capacity)
    ∧ (bus.stopped = true →
        bus'.position = bus.position ∧ bus'.direction = bus.direction
        ∧ bus'.busdir = bus.busdir
        ∧ m'.acc.oil_cost = m.acc.oil_cost
        ∧ evs.countP Event.isBusTurns = 0)
    ∧ (bus.stopped = false →
        bus'.position
          = (bus.position.1, bus.position.2 + bus.speed * bus.direction)
        ∧ ((m.vert_start ≤ bus.position.2 + bus.speed * bus.direction
              ∧ bus.position.2 + bus.speed * bus.direction ≤ m.vert_end) →
            bus'.direction = bus.direction ∧ bus'.busdir = bus.busdir
            ∧ m'.acc.oil_cost = m.acc.oil_cost
            ∧ evs.countP Event.isBusTurns = 0)
        ∧ (¬ (m.vert_start ≤ bus.position.2 + bus.speed * bus.direction
              ∧ bus.position.2 + bus.speed * bus.direction ≤ m.vert_end) →
            bus'.direction = -bus.direction
            ∧ bus'.busdir = { bus.busdir with v := -bus.busdir.v }
            ∧ m'.acc.oil_cost = m.acc.oil_cost + 5 / 2
            ∧ evs.countP Event.isBusTurns = 1)) := by
  unfold update_bus_vert at h
  split at h
  case isTrue hstop =>
    simp only [] at h
    split at h
    case isTrue hout =>
      split at h
      case h_1 => exact absurd h (by simp)
      case h_2 mₛ bₛ evsₛ hserve =>
        simp only [Option.some.injEq, Prod.mk.injEq] at h
        obtain ⟨h1, h2, h3⟩ := h
        subst h1; subst h2; subst h3
        obtain ⟨hbf, hgf, hoil, hbuses, hevs, hcap⟩ :=
          serve_stops_frame hserve
        obtain ⟨hp, hd, hsp, hmv, hcp, hbd, -, -, -⟩ := hbf
        refine ⟨hgf, hbuses, hsp, hmv, hcp, hcap,
          fun habs => absurd hstop (by simp [habs]), fun _ => ?_⟩
        refine ⟨hp, fun hin => absurd hin hout, fun _ => ?_⟩
        exact ⟨hd, hbd, by rw [hoil],
          by rw [List.countP_cons_of_pos _ _ (by rfl),
            countP_busTurns_zero hevs]⟩
    case isFalse hout =>
      obtain ⟨hbf, hgf, hoil, hbuses, hevs, hcap⟩ := serve_stops_frame h
      obtain ⟨hp, hd, hsp, hmv, hcp, hbd, -, -, -⟩ := hbf
      refine ⟨hgf, hbuses, hsp, hmv, hcp, hcap,
        fun habs => absurd hstop (by simp [habs]), fun _ => ?_⟩
      refine ⟨hp, fun _ => ⟨hd, hbd, hoil, countP_busTurns_zero hevs⟩,
        fun hnin => absurd (not_not.mp hout) hnin⟩
  case isFalse hstop =>
    have hstop' : bus.stopped = true := by
      cases hb : bus.stopped
      · exact absurd hb hstop
      · rfl
    simp only [] at h
    obtain ⟨hbf, hgf, hoil, hbuses, hevs, hcap⟩ := serve_stops_frame h
    obtain ⟨hp, hd, hsp, hmv, hcp, hbd, -, -, -⟩ := hbf
    exact ⟨hgf, hbuses, hsp, hmv, hcp, hcap,
      fun _ => ⟨hp, hd, hbd, hoil, countP_busTurns_zero hevs⟩,
      fun habs => absurd hstop' (by simp [habs])⟩

/-- Shape of one `update_bus_s` call: as the linear cases on the x extent,
and after any non-stopped step the y coordinate lies between the two
plateaus. -/
theorem update_bus_s_shape {m : Model} {now : ℚ} {bus : Bus}
    {m' : Model} {bus' : Bus} {evs : List Event}
    (h : update_bus_s m now bus = some (m', bus', evs)) :
    geomFrame m m' ∧ m'.buses = m.buses
    ∧ bus'.speed = bus.speed ∧ bus'.move = bus.move
    ∧ bus'.capacity = bus.capacity
    ∧ ((bus.passengers.length : Int) ≤ bus.capacity →
        (bus'.passengers.length : Int) ≤ bus'.capacity)
    ∧ (bus.stopped = true →
        bus'.position = bus.position ∧ bus'.direction = bus.direction
        ∧ bus'.busdir = bus.busdir
        ∧ m'.acc.oil_cost = m.acc.oil_cost
        ∧ evs.countP Event.isBusTurns = 0)
    ∧ (bus.stopped = false →
        bus'.position.1 = bus.position.1 + bus.speed * bus.direction
        ∧ (-20 ≤ bus'.position.2 ∧ bus'.position.2 ≤ 30)
        ∧ ((m.s_start ≤ bus.position.1 + bus.speed * bus.direction
              ∧ bus.position.1 + bus.speed * bus.direction ≤ m.s_end) →
            bus'.direction = bus.direction ∧ bus'.busdir = bus.busdir
            ∧ m'.acc.oil_cost = m.acc.oil_cost
            ∧ evs.countP Event.isBusTurns = 0)
        ∧ (¬ (m.s_start ≤ bus.position.1 + bus.speed * bus.direction
              ∧ bus.position.1 + bus.speed * bus.direction ≤ m.s_end) →
            bus'.direction = -bus.direction
            ∧ bus'.busdir = { bus.busdir with s := -bus.busdir.s }
            ∧ m'.acc.oil_cost = m.acc.oil_cost + 5 / 2
            ∧ evs.countP Event.isBusTurns = 1)) := by
  unfold update_bus_s at h
  split at h
  case isTrue hstop =>
    simp only [] at h
    split at h
    case isTrue hout =>
      split at h
      case h_1 => exact absurd h (by simp)
      case h_2 mₛ bₛ evsₛ hserve =>
        simp only [Option.some.injEq, Prod.mk.injEq] at h
        obtain ⟨h1, h2, h3⟩ := h
        subst h1; subst h2; subst h3
        obtain ⟨hbf, hgf, hoil, hbuses, hevs, hcap⟩ :=
          serve_stops_frame hserve
        obtain ⟨hp, hd, hsp, hmv, hcp, hbd, -, -, -⟩ := hbf
        refine ⟨hgf, hbuses, hsp, hmv, hcp, hcap,
          fun habs => absurd hstop (by simp [habs]), fun _ => ?_⟩
        refine ⟨by rw [hp], ?_, fun hin => absurd hin hout, fun _ => ?_⟩
        · rw [hp]
          simp only
          split_ifs <;> constructor <;> linarith
        · exact ⟨hd, hbd, by rw [hoil],
            by rw [List.countP_cons_of_pos _ _ (by rfl),
              countP_busTurns_zero hevs]⟩
    case isFalse hout =>
      obtain ⟨hbf, hgf, hoil, hbuses, hevs, hcap⟩ := serve_stops_frame h
      obtain ⟨hp, hd, hsp, hmv, hcp, hbd, -, -, -⟩ := hbf
      refine ⟨hgf, hbuses, hsp, hmv, hcp, hcap,
        fun habs => absurd hstop (by simp [habs]), fun _ => ?_⟩
      refine ⟨by rw [hp], ?_,
        fun _ => ⟨hd, hbd, hoil, countP_busTurns_zero hevs⟩,
        fun hnin => absurd (not_not.mp hout) hnin⟩
      rw [hp]
      simp only
      split_ifs <;> constructor <;> linarith
  case isFalse hstop =>
    have hstop' : bus.stopped = true := by
      cases hb : bus.stopped
      · exact absurd hb hstop
      · rfl
    simp only [] at h
    obtain ⟨hbf, hgf, hoil, hbuses, hevs, hcap⟩ := serve_stops_frame h
    obtain ⟨hp, hd, hsp, hmv, hcp, hbd, -, -, -⟩ := hbf
    exact ⟨hgf, hbuses, hsp, hmv, hcp, hcap,
      fun _ => ⟨hp, hd, hbd, hoil, countP_busTurns_zero hevs⟩,
      fun habs => absurd hstop' (by simp [habs])⟩

/-- One movement step preserves the axis position invariant: staying inside
the interval keeps the direction, exiting it flips the direction and the
overshoot is bounded by one speed step. -/
theorem posInvAx_step {lo hi speed : ℚ} {dir : Int} {c : ℚ}
    (hlh : lo ≤ hi) (hsp : 0 ≤ speed) (hdir : dir = 1 ∨ dir = -1)
    (hinv : posInvAx lo hi speed dir c) :
    ((lo ≤ c + speed * dir ∧ c + speed * dir ≤ hi) →
      posInvAx lo hi speed dir (c + speed * dir))
    ∧ (¬ (lo ≤ c + speed * dir ∧ c + speed * dir ≤ hi) →
      posInvAx lo hi speed (-dir) (c + speed * dir)) := by
  unfold posInvAx at hinv ⊢
  constructor
  · intro hin
    exact Or.inl hin
  · intro hout
    rcases hdir with rfl | rfl
    · rw [show ((1 : Int) : ℚ) = 1 from by norm_num, mul_one]
        at hout ⊢
      rcases hinv with ⟨h1, h2⟩ | ⟨h1, h2, h3⟩ | ⟨h1, h2, h3⟩
      · refine Or.inr (Or.inl ⟨?_, by linarith, by decide⟩)
        by_contra hc
        push_neg at hc
        exact hout ⟨by linarith, by linarith⟩
      · exact absurd h3 (by decide)
      · refine Or.inr (Or.inl ⟨?_, by linarith, by decide⟩)
        by_contra hc
        push_neg at hc
        exact hout ⟨by linarith, by linarith⟩
    · rw [show ((-1 : Int) : ℚ) = -1 from by norm_num, mul_neg_one]
        at hout ⊢
      rcases hinv with ⟨h1, h2⟩ | ⟨h1, h2, h3⟩ | ⟨h1, h2, h3⟩
      · refine Or.inr (Or.inr ⟨?_, by linarith, by decide⟩)
        by_contra hc
        push_neg at hc
        exact hout ⟨by linarith, by linarith⟩
      · refine Or.inr (Or.inr ⟨?_, by linarith, by decide⟩)
        by_contra hc
        push_neg at hc
        exact hout ⟨by linarith, by linarith⟩
      · exact absurd h3 (by decide)

/-- One `update_bus` call preserves the per-bus movement invariant. -/
theorem update_bus_ok {m : Model} {now : ℚ} {bus : Bus} {m' : Model}
    {bus' : Bus} {evs : List Event}
    (h : update_bus m now bus = some (m', bus', evs))
    (hb : bounds_ok m) (hok : bus_ok m bus) :
    bus_ok m' bus' := by
  obtain ⟨hsp0, hdir, hinv, hclamp⟩ := hok
  obtain ⟨hbv, hbh, hbs⟩ := hb
  unfold update_bus at h
  cases hmv : bus.move
  case h =>
    rw [hmv] at h
    simp only [] at h
    obtain ⟨hgf, -, hsp, hmv', -, -, hstopT, hstopF⟩ :=
      update_bus_hori_shape h
    rw [hmv] at hmv'
    rw [hmv] at hinv
    simp only [geo_lo, geo_hi, free_coord] at hinv
    cases hst : bus.stopped
    · obtain ⟨hpos, hbnd⟩ := (hstopF hst).imp_right And.left
      obtain ⟨-, -, ig3, ig4, -, -, -, -, -⟩ := hgf
      refine ⟨by rw [hsp]; exact hsp0, ?_, ?_,
        fun habs => absurd (habs ▸ hmv') (by simp)⟩
      · by_cases hin : m.hori_start ≤ bus.position.1
            + bus.speed * bus.direction
            ∧ bus.position.1 + bus.speed * bus.direction ≤ m.hori_end
        · rw [(hbnd hin).1]
          exact hdir
        · rw [((hstopF hst).2.2 hin).1]
          rcases hdir with h1 | h1 <;> rw [h1] <;> simp
      · rw [hmv']
        simp only [geo_lo, geo_hi, free_coord]
        rw [ig3, ig4, hpos, hsp]
        simp only
        by_cases hin : m.hori_start ≤ bus.position.1
            + bus.speed * bus.direction
            ∧ bus.position.1 + bus.speed * bus.direction ≤ m.hori_end
        · rw [(hbnd hin).1]
          exact (posInvAx_step hbh hsp0 hdir hinv).1 hin
        · rw [((hstopF hst).2.2 hin).1]
          exact (posInvAx_step hbh hsp0 hdir hinv).2 hin
    · obtain ⟨hpos, hd, -, -, -⟩ := hstopT hst
      obtain ⟨-, -, ig3, ig4, -, -, -, -, -⟩ := hgf
      refine ⟨by rw [hsp]; exact hsp0, by rw [hd]; exact hdir, ?_,
        fun habs => absurd (habs ▸ hmv') (by simp)⟩
      rw [hmv']
      simp only [geo_lo, geo_hi, free_coord]
      rw [ig3, ig4, hpos, hsp, hd]
      exact hinv
  case v =>
    rw [hmv] at h
    simp only [] at h
    obtain ⟨hgf, -, hsp, hmv', -, -, hstopT, hstopF⟩ :=
      update_bus_vert_shape h
    rw [hmv] at hmv'
    rw [hmv] at hinv
    simp only [geo_lo, geo_hi, free_coord] at hinv
    cases hst : bus.stopped
    · obtain ⟨hpos, hbnd⟩ := (hstopF hst).imp_right And.left
      obtain ⟨ig1, ig2, -, -, -, -, -, -, -⟩ := hgf
      refine ⟨by rw [hsp]; exact hsp0, ?_, ?_,
        fun habs => absurd (habs ▸ hmv') (by simp)⟩
      · by_cases hin : m.vert_start ≤ bus.position.2
            + bus.speed * bus.direction
            ∧ bus.position.2 + bus.speed * bus.direction ≤ m.vert_end
        · rw [(hbnd hin).1]
          exact hdir
        · rw [((hstopF hst).2.2 hin).1]
          rcases hdir with h1 | h1 <;> rw [h1] <;> simp
      · rw [hmv']
        simp only [geo_lo, geo_hi, free_coord]
        rw [ig1, ig2, hpos, hsp]
        simp only
        by_cases hin : m.vert_start ≤ bus.position.2
            + bus.speed * bus.direction
            ∧ bus.position.2 + bus.speed * bus.direction ≤ m.vert_end
        · rw [(hbnd hin).1]
          exact (posInvAx_step hbv hsp0 hdir hinv).1 hin
        · rw [((hstopF hst).2.2 hin).1]
          exact (posInvAx_step hbv hsp0 hdir hinv).2 hin
    · obtain ⟨hpos, hd, -, -, -⟩ := hstopT hst
      obtain ⟨ig1, ig2, -, -, -, -, -, -, -⟩ := hgf
      refine ⟨by rw [hsp]; exact hsp0, by rw [hd]; exact hdir, ?_,
        fun habs => absurd (habs ▸ hmv') (by simp)⟩
      rw [hmv']
      simp only [geo_lo, geo_hi, free_coord]
      rw [ig1, ig2, hpos, hsp, hd]
      exact hinv
  case s =>
    rw [hmv] at h
    simp only [] at h
    obtain ⟨hgf, -, hsp, hmv', -, -, hstopT, hstopF⟩ :=
      update_bus_s_shape h
    rw [hmv] at hmv'
    rw [hmv] at hinv
    simp only [geo_lo, geo_hi, free_coord] at hinv
    cases hst : bus.stopped
    · obtain ⟨hpos, hy, hbndIn, hbndOut⟩ := hstopF hst
      obtain ⟨-, -, -, -, ig5, ig6, -, -, -⟩ := hgf
      refine ⟨by rw [hsp]; exact hsp0, ?_, ?_, fun _ => hy⟩
      · by_cases hin : m.s_start ≤ bus.position.1
            + bus.speed * bus.direction
            ∧ bus.position.1 + bus.speed * bus.direction ≤ m.s_end
        · rw [(hbndIn hin).1]
          exact hdir
        · rw [(hbndOut hin).1]
          rcases hdir with h1 | h1 <;> rw [h1] <;> simp
      · rw [hmv']
        simp only [geo_lo, geo_hi, free_coord]
        rw [ig5, ig6, hpos, hsp]
        by_cases hin : m.s_start ≤ bus.position.1
            + bus.speed * bus.direction
            ∧ bus.position.1 + bus.speed * bus.direction ≤ m.s_end
        · rw [(hbndIn hin).1]
          exact (posInvAx_step hbs hsp0 hdir hinv).1 hin
        · rw [(hbndOut hin).1]
          exact (posInvAx_step hbs hsp0 hdir hinv).2 hin
    · obtain ⟨hpos, hd, -, -, -⟩ := hstopT hst
      obtain ⟨-, -, -, -, ig5, ig6, -, -, -⟩ := hgf
      refine ⟨by rw [hsp]; exact hsp0, by rw [hd]; exact hdir, ?_,
        fun _ => by rw [hpos]; exact hclamp hmv⟩
      rw [hmv']
      simp only [geo_lo, geo_hi, free_coord]
      rw [ig5, ig6, hpos, hsp, hd]
      exact hinv

theorem update_bus_geom {m : Model} {now : ℚ} {bus : Bus} {m' : Model}
    {bus' : Bus} {evs : List Event}
    (h : update_bus m now bus = some (m', bus', evs)) : geomFrame m m' := by
  unfold update_bus at h
  cases hmv : bus.move <;> rw [hmv] at h <;> simp only [] at h
  exacts [(update_bus_hori_shape h).1, (update_bus_vert_shape h).1,
    (update_bus_s_shape h).1]

theorem update_bus_cap {m : Model} {now : ℚ} {bus : Bus} {m' : Model}
    {bus' : Bus} {evs : List Event}
    (h : update_bus m now bus = some (m', bus', evs))
    (hc : (bus.passengers.length : Int) ≤ bus.capacity) :
    (bus'.passengers.length : Int) ≤ bus'.capacity := by
  unfold update_bus at h
  cases hmv : bus.move <;> rw [hmv] at h <;> simp only [] at h
  exacts [(update_bus_hori_shape h).2.2.2.2.2.1 hc,
    (update_bus_vert_shape h).2.2.2.2.2.1 hc,
    (update_bus_s_shape h).2.2.2.2.2.1 hc]

theorem geo_lo_congr {m m' : Model} (hg : geomFrame m m') (mv : MoveKind) :
    geo_lo m' mv = geo_lo m mv := by
  obtain ⟨g1, g2, g3, g4, g5, g6, -, -, -⟩ := hg
  cases mv <;> simp only [geo_lo, g1, g3, g5]

theorem geo_hi_congr {m m' : Model} (hg : geomFrame m m') (mv : MoveKind) :
    geo_hi m' mv = geo_hi m mv := by
  obtain ⟨g1, g2, g3, g4, g5, g6, -, -, -⟩ := hg
  cases mv <;> simp only [geo_hi, g2, g4, g6]

theorem bounds_ok_congr {m m' : Model} (hg : geomFrame m m')
    (hb : bounds_ok m) : bounds_ok m' := by
  obtain ⟨g1, g2, g3, g4, g5, g6, -, -, -⟩ := hg
  obtain ⟨b1, b2, b3⟩ := hb
  exact ⟨g1 ▸ g2 ▸ b1, g3 ▸ g4 ▸ b2, g5 ▸ g6 ▸ b3⟩

theorem bus_ok_congr {m m' : Model} {b : Bus} (hg : geomFrame m m')
    (hb : bus_ok m b) : bus_ok m' b := by
  obtain ⟨h1, h2, h3, h4⟩ := hb
  refine ⟨h1, h2, ?_, h4⟩
  rw [geo_lo_congr hg, geo_hi_congr hg]
  exact h3

/-- The bus phase of a tick: geometry frame, preservation of the capacity
bound and of the movement invariant for every bus in the list. -/
theorem update_buses_spec {m : Model} {now : ℚ} {l : List Bus}
    {m' : Model} {l' : List Bus} {evs : List Event}
    (h : update_buses m now l = some (m', l', evs)) :
    geomFrame m m'
    ∧ ((∀ b ∈ l, (b.passengers.length : Int) ≤ b.capacity) →
        ∀ b ∈ l', (b.passengers.length : Int) ≤ b.capacity)
    ∧ (bounds_ok m → (∀ b ∈ l, bus_ok m b) → ∀ b ∈ l', bus_ok m' b) := by
  induction l generalizing m l' evs with
  | nil =>
    simp only [update_buses, Option.some.injEq, Prod.mk.injEq] at h
    obtain ⟨h1, h2, h3⟩ := h
    subst h1; subst h2
    exact ⟨geomFrame_rfl m, fun _ b hb => absurd hb (by simp),
      fun _ _ b hb => absurd hb (by simp)⟩
  | cons b bs ih =>
    unfold update_buses at h
    split at h
    case h_1 => exact absurd h (by simp)
    case h_2 m₁ b' ev₁ hub =>
      split at h
      case h_1 => exact absurd h (by simp)
      case h_2 m₂ bs' ev₂ hubs =>
        simp only [Option.some.injEq, Prod.mk.injEq] at h
        obtain ⟨h1, h2, h3⟩ := h
        subst h1; subst h2; subst h3
        have hg1 := update_bus_geom hub
        obtain ⟨hg2, hcap2, hok2⟩ := ih hubs
        refine ⟨geomFrame_trans hg1 hg2, ?_, ?_⟩
        · intro hc c hc'
          rcases List.mem_cons.mp hc' with rfl | hmem
          · exact update_bus_cap hub (hc b (by simp))
          · exact hcap2 (fun x hx => hc x (by simp [hx])) c hmem
        · intro hbnd hok c hc'
          rcases List.mem_cons.mp hc' with rfl | hmem
          · exact bus_ok_congr hg2
              (update_bus_ok hub hbnd (hok b (by simp)))
          · exact hok2 (bounds_ok_congr hg1 hbnd)
              (fun x hx => bus_ok_congr hg1 (hok x (by simp [hx]))) c hmem

/-- One tick preserves the geometry frame, the capacity invariant and the
movement invariant. -/
theorem update_spec {m : Model} {inp : TickInput} {m' : Model}
    {evs : List Event} (h : update m inp = some (m', evs)) :
    geomFrame m m' ∧ (capInv m → capInv m')
      ∧ (buses_ok m → buses_ok m') := by
  unfold update at h
  split at h
  case h_1 => exact absurd h (by simp)
  case h_2 m₁ buses' ev₁ hub =>
    split at h
    case h_1 => exact absurd h (by simp)
    case h_2 stops₂ acc₂ ev₂ harr =>
      split at h
      case h_1 => exact absurd h (by simp)
      case h_2 stops₃ acc₃ ev₃ hleave =>
        simp only [Option.some.injEq, Prod.mk.injEq] at h
        obtain ⟨h1, h2⟩ := h
        subst h1; subst h2
        obtain ⟨hg, hcap, hok⟩ := update_buses_spec hub
        refine ⟨geomFrame_trans hg (geomFrame_rfl _), ?_, ?_⟩
        · intro hc b hb
          simp only at hb
          exact hcap hc b hb
        · rintro ⟨hbnd, hok0⟩
          refine ⟨bounds_ok_congr
            (geomFrame_trans hg (geomFrame_rfl _)) hbnd, ?_⟩
          intro b hb
          simp only at hb
          exact bus_ok_congr (geomFrame_rfl _) (hok hbnd hok0 b hb)

/-- A whole run preserves the capacity and movement invariants. -/
theorem run_spec {m : Model} {inps : List TickInput} {m' : Model}
    (h : run m inps = some m') :
    (capInv m → capInv m') ∧ (buses_ok m → buses_ok m') := by
  induction inps generalizing m with
  | nil =>
    simp only [run, Option.some.injEq] at h
    subst h
    exact ⟨id, id⟩
  | cons i is ih =>
    unfold run at h
    split at h
    case h_1 => exact absurd h (by simp)
    case h_2 m₁ evs hupd =>
      obtain ⟨-, hcap, hok⟩ := update_spec hupd
      obtain ⟨hcap2, hok2⟩ := ih h
      exact ⟨fun hc => hcap2 (hcap hc), fun hc => hok2 (hok hc)⟩

/-- C2: each `stop_at` call for one (bus, stop) encounter resolves at most
one passenger action — either exactly one `ALIGHTS` or `CHANGES` event
(boarding skipped entirely for that call) or exactly one `BOARDS` event —
and sets the bus's `stopped` flag when an action is resolved; when no
passenger is eligible or capacity is full, the `stopped` flag is cleared
and no event is produced. -/
theorem c2_single_action {now : ℚ} {bus : Bus} {stop : BusStop}
    {acc : Acc} {bus' : Bus} {stop' : BusStop} {acc' : Acc}
    {evs : List Event}
    (h : stop_at now bus stop acc = some (bus', stop', acc', evs)) :
    (evs = [] ∧ bus'.stopped = false ∧ stop' = stop
       ∧ bus'.passengers.length = bus.passengers.length)
    ∨ (∃ nm, (evs = [Event.alights nm] ∨ evs = [Event.changes nm]
         ∨ evs = [Event.boards nm]) ∧ bus'.stopped = true) := by
  rw [stop_at_eq] at h
  split at h
  case h_1 p0 rest hext =>
    split at h
    · simp only [Option.some.injEq, Prod.mk.injEq] at h
      obtain ⟨h1, h2, h3, h4⟩ := h
      subst h1; subst h4
      exact Or.inr ⟨p0.name, Or.inr (Or.inl rfl), rfl⟩
    · simp only [Option.some.injEq, Prod.mk.injEq] at h
      obtain ⟨h1, h2, h3, h4⟩ := h
      subst h1; subst h4
      exact Or.inr ⟨p0.name, Or.inl rfl, rfl⟩
  case h_2 hext =>
    rcases board_scan_cases h with
      ⟨hevs, hbus, hstop, hacc, -⟩ |
      ⟨p, rest, hist, -, -, -, hbus, -, -, hevs⟩
    · subst hevs; subst hbus; subst hstop
      exact Or.inl ⟨rfl, rfl, rfl, by simp [mark_changed_length]⟩
    · subst hevs; subst hbus
      exact Or.inr ⟨p.name, Or.inr (Or.inr rfl), rfl⟩

/-- C2 at a concrete encounter: `bus_local_h` picks up Pam at West St,
producing exactly one `BOARDS` event with the `stopped` flag set. -/
theorem c2_single_action_witness :
    stop_at 100 bus_local_h stop_west acc0
        = some (boardEx.1, boardEx.2.1, boardEx.2.2.1, boardEx.2.2.2)
    ∧ ((boardEx.2.2.2 = [] ∧ boardEx.1.stopped = false
          ∧ boardEx.2.1 = stop_west
          ∧ boardEx.1.passengers.length = bus_local_h.passengers.length)
        ∨ (∃ nm, (boardEx.2.2.2 = [Event.alights nm]
            ∨ boardEx.2.2.2 = [Event.changes nm]
            ∨ boardEx.2.2.2 = [Event.boards nm])
          ∧ boardEx.1.stopped = true)) := by
  have h : stop_at 100 bus_local_h stop_west acc0
      = some (boardEx.1, boardEx.2.1, boardEx.2.2.1, boardEx.2.2.2) := by
    decide
  exact ⟨h, c2_single_action h⟩

/-- C4: when the first alighting-eligible onboard passenger is removed from
a bus at a stop, then — if its transfer flag is set and it has not yet
completed its transfer — it is appended to the stop's waiting collection
with its arrival timestamp reset to the current time (and, per the `exec`
line, its direction flag for this geometry zeroed) and a `CHANGES` event is
emitted; otherwise an `ALIGHTS` event is emitted and the passenger is kept
nowhere.  (`p0` carries the `changed_and_alight` mark the selection scan
just set for passengers alighting at their destination.) -/
theorem c4_alight_transfer {now : ℚ} {bus : Bus} {stop : BusStop}
    {acc : Acc} {bus' : Bus} {stop' : BusStop} {acc' : Acc}
    {evs : List Event} {p0 : BusPassenger} {rest : List BusPassenger}
    (hres : stop_at now bus stop acc = some (bus', stop', acc', evs))
    (hal : extractFirst (alight_pred stop.name)
        (mark_changed stop.name bus.passengers) = some (p0, rest)) :
    bus'.passengers = rest ∧ bus'.stopped = true
    ∧ (p0.change = true → p0.changed_and_alight = false →
        stop'.passengers = stop.passengers
            ++ [zero_dir bus.move { p0 with arrive_time := now }]
        ∧ evs = [Event.changes p0.name])
    ∧ (p0.change = false ∨ p0.changed_and_alight = true →
        stop' = stop ∧ evs = [Event.alights p0.name]) := by
  rw [stop_at_eq] at hres
  rw [hal] at hres
  have hres' :
      (if p0.change && !p0.changed_and_alight then
        some (({ bus with stopped := true, passengers := rest } : Bus),
              ({ stop with
                  passengers := stop.passengers
                    ++ [zero_dir bus.move { p0 with arrive_time := now }] }
                : BusStop),
              acc, [Event.changes p0.name])
      else
        some (({ bus with stopped := true, passengers := rest } : Bus),
              stop, acc, [Event.alights p0.name]))
      = some (bus', stop', acc', evs) := hres
  split at hres'
  case isTrue hc =>
    simp only [Bool.and_eq_true, Bool.not_eq_true'] at hc
    simp only [Option.some.injEq, Prod.mk.injEq] at hres'
    obtain ⟨h1, h2, h3, h4⟩ := hres'
    subst h1; subst h2; subst h4
    refine ⟨rfl, rfl, fun _ _ => ⟨rfl, rfl⟩, fun hcon => ?_⟩
    rcases hcon with hf | ht
    · exact absurd hc.1 (by simp [hf])
    · exact absurd hc.2 (by simp [ht])
  case isFalse hc =>
    simp only [Bool.and_eq_true, Bool.not_eq_true', not_and_or] at hc
    simp only [Option.some.injEq, Prod.mk.injEq] at hres'
    obtain ⟨h1, h2, h3, h4⟩ := hres'
    subst h1; subst h2; subst h4
    refine ⟨rfl, rfl, fun hch hca => ?_, fun _ => ⟨rfl, rfl⟩⟩
    rcases hc with hf | ht
    · exact absurd hch (by simpa using hf)
    · exact absurd hca (by simpa using ht)

/-- C4 at a concrete encounter: Dov, mid-transfer, alights from the
vertical bus at the Centre St hub and reappears in the hub's waiting
collection with a reset timestamp, producing a `CHANGES` event. -/
theorem c4_alight_transfer_witness :
    stop_at 100 bus_vert_l stop_centre acc0
        = some (changeEx.1, changeEx.2.1, changeEx.2.2.1, changeEx.2.2.2)
    ∧ extractFirst (alight_pred stop_centre.name)
        (mark_changed stop_centre.name bus_vert_l.passengers)
        = some (pax_dov, [])
    ∧ changeEx.1.passengers = [] ∧ changeEx.1.stopped = true
    ∧ changeEx.2.1.passengers = stop_centre.passengers
        ++ [zero_dir bus_vert_l.move { pax_dov with arrive_time := 100 }]
    ∧ changeEx.2.2.2 = [Event.changes pax_dov.name] := by
  have h1 : stop_at 100 bus_vert_l stop_centre acc0
      = some (changeEx.1, changeEx.2.1, changeEx.2.2.1, changeEx.2.2.2) := by
    decide
  have h2 : extractFirst (alight_pred stop_centre.name)
      (mark_changed stop_centre.name bus_vert_l.passengers)
      = some (pax_dov, []) := by decide
  have h3 := c4_alight_transfer h1 h2
  exact ⟨h1, h2, h3.1, h3.2.1, (h3.2.2.1 rfl rfl).1, (h3.2.2.1 rfl rfl).2⟩

/-- The boarding candidate test of the code coincides with the spec's
wording of boarding eligibility. -/
theorem board_pred_iff_spec (bus : Bus) (stopName : String)
    (p : BusPassenger) :
    board_pred bus stopName p = true
      ↔ boarding_eligible_spec bus stopName p := by
  unfold board_pred boarding_eligible_spec
  cases hc : bus.rapid_express_local <;>
    simp only [Bool.and_eq_true, Bool.or_eq_true, Bool.not_eq_true',
      Bool.true_and, List.elem_eq_mem, decide_eq_true_eq,
      decide_eq_false_iff_not, beq_iff_eq] <;>
    tauto

/-- C3: in `stop_at`, a waiting passenger boards only under the class rule
(rapid: destination and stop both recognized stations, or destination off
the bus's own geometry axis while the stop is recognized; express: both
recognized; local: unrestricted) together with the direction-sign test and
capacity; the stop's waiting list is scanned in arrival order and the first
eligible passenger boards. -/
theorem c3_boarding_selection {now : ℚ} {bus : Bus} {stop : BusStop}
    {acc : Acc} {bus' : Bus} {stop' : BusStop} {acc' : Acc}
    {evs : List Event}
    (hres : stop_at now bus stop acc = some (bus', stop', acc', evs))
    (hno : extractFirst (alight_pred stop.name)
        (mark_changed stop.name bus.passengers) = none) :
    (∀ nm, evs = [Event.boards nm] →
      ∃ pre p post, stop.passengers = pre ++ p :: post
        ∧ nm = p.name
        ∧ boarding_eligible_spec bus stop.name p
        ∧ (∀ q ∈ pre, ¬ boarding_eligible_spec bus stop.name q)
        ∧ (bus.passengers.length : Int) < bus.capacity
        ∧ stop'.passengers = pre ++ post)
    ∧ (evs = [] →
        bus.capacity ≤ (bus.passengers.length : Int)
        ∨ ∀ q ∈ stop.passengers, ¬ boarding_eligible_spec bus stop.name q)
    := by
  rw [stop_at_eq] at hres
  rw [hno] at hres
  have hres' : board_scan now
      { bus with passengers := mark_changed stop.name bus.passengers }
      stop acc = some (bus', stop', acc', evs) := hres
  have hpred : board_pred
      { bus with passengers := mark_changed stop.name bus.passengers }
      stop.name = board_pred bus stop.name := rfl
  rcases board_scan_cases hres' with
    ⟨hevs, hbus, hstop, hacc, hnone⟩ |
    ⟨p, rest, hist, hext, hcap, hupd, hbus, hstop, hacc, hevs⟩
  · subst hevs
    constructor
    · intro nm hnm
      exact absurd hnm (by simp)
    · intro _
      by_cases hcap : (bus.passengers.length : Int) < bus.capacity
      · right
        have hcap' : ((mark_changed stop.name bus.passengers).length : Int)
            < bus.capacity := by
          simpa [mark_changed_length] using hcap
        have hnone' := hnone hcap'
        rw [hpred] at hnone'
        intro q hq
        rw [← board_pred_iff_spec]
        simp [extractFirst_eq_none.mp hnone' q hq]
      · left
        omega
  · subst hevs; subst hstop
    rw [hpred] at hext
    have hcap' : (bus.passengers.length : Int) < bus.capacity := by
      simpa [mark_changed_length] using hcap
    constructor
    · intro nm hnm
      have hnm' : nm = p.name := by
        simp only [List.cons.injEq, Event.boards.injEq, and_true] at hnm
        exact hnm.symm
      obtain ⟨l₁, l₂, hsplit, hrest, hp, hl₁⟩ := extractFirst_eq_some hext
      refine ⟨l₁, p, l₂, hsplit, hnm', (board_pred_iff_spec ..).mp hp,
        ?_, hcap', by rw [hrest]⟩
      intro q hq
      rw [← board_pred_iff_spec]
      simp [hl₁ q hq]
    · intro habs
      exact absurd habs (by simp)

/-- C3 at a concrete encounter: Pam (destination East St, eastbound flag)
is the first — and only — spec-eligible waiting passenger at West St and is
exactly the passenger `stop_at` boards. -/
theorem c3_boarding_selection_witness :
    stop_at 100 bus_local_h stop_west acc0
        = some (boardEx.1, boardEx.2.1, boardEx.2.2.1, boardEx.2.2.2)
    ∧ extractFirst (alight_pred stop_west.name)
        (mark_changed stop_west.name bus_local_h.passengers) = none
    ∧ boardEx.2.2.2 = [Event.boards "Pam"]
    ∧ (∃ pre p post, stop_west.passengers = pre ++ p :: post
        ∧ "Pam" = p.name
        ∧ boarding_eligible_spec bus_local_h stop_west.name p
        ∧ (∀ q ∈ pre, ¬ boarding_eligible_spec bus_local_h stop_west.name q)
        ∧ (bus_local_h.passengers.length : Int) < bus_local_h.capacity
        ∧ boardEx.2.1.passengers = pre ++ post) := by
  have h1 : stop_at 100 bus_local_h stop_west acc0
      = some (boardEx.1, boardEx.2.1, boardEx.2.2.1, boardEx.2.2.2) := by
    decide
  have h2 : extractFirst (alight_pred stop_west.name)
      (mark_changed stop_west.name bus_local_h.passengers) = none := by
    decide
  have h3 : boardEx.2.2.2 = [Event.boards "Pam"] := by decide
  exact ⟨h1, h2, h3, (c3_boarding_selection h1 h2).1 "Pam" h3⟩

theorem leave_stop_count {acc : Acc} {now : ℚ} {stop : BusStop}
    {stop' : BusStop} {acc' : Acc} {evs : List Event}
    (h : leave_stop acc now stop = some (stop', acc', evs)) :
    evs.countP Event.isLeftEv ≤ 1
    ∧ acc'.leave_passengers ≤ acc.leave_passengers + 1 := by
  unfold leave_stop at h
  split at h
  case h_1 =>
    simp only [Option.some.injEq, Prod.mk.injEq] at h
    obtain ⟨h1, h2, h3⟩ := h
    subst h2; subst h3
    simp
  case h_2 p rest hext =>
    split at h
    case h_1 => exact absurd h (by simp)
    case h_2 hist hupd =>
      simp only [Option.some.injEq, Prod.mk.injEq] at h
      obtain ⟨h1, h2, h3⟩ := h
      subst h2; subst h3
      simp [List.countP_cons, Event.isLeftEv]

/-- C5: per stop per call of `leave_stop`, the first waiting passenger in
arrival order whose wait exceeds 12 time units is removed, exactly one
`LEFT` event is emitted and `leave_passengers` increments by one; at most
one abandonment happens per stop per tick even when several passengers
exceed the threshold (`leave_phase` runs `leave_stop` once per stop, so a
tick emits at most one `LEFT` event per stop). -/
theorem c5_abandonment (acc : Acc) (now : ℚ) (stop : BusStop) :
    (∀ stop' acc' evs, leave_stop acc now stop = some (stop', acc', evs) →
        evs.countP Event.isLeftEv ≤ 1
        ∧ acc'.leave_passengers ≤ acc.leave_passengers + 1)
    ∧ (∀ l₁ p l₂, stop.passengers = l₁ ++ p :: l₂ →
        (∀ q ∈ l₁, ¬ (now - q.arrive_time > 12)) →
        now - p.arrive_time > 12 →
        acc.avg_wait_time ≠ [] →
        ∃ acc', leave_stop acc now stop
            = some ({ stop with passengers := l₁ ++ l₂ }, acc',
                [Event.left p.name])
          ∧ acc'.leave_passengers = acc.leave_passengers + 1)
    ∧ (∀ (stops stops' : List BusStop) (acc₁ acc₂ : Acc)
          (evs : List Event),
        leave_phase now stops acc₁ = some (stops', acc₂, evs) →
        evs.countP Event.isLeftEv ≤ stops.length) := by
  refine ⟨fun stop' acc' evs h => leave_stop_count h, ?_, ?_⟩
  · intro l₁ p l₂ hsplit hl₁ hp hne
    have hext : extractFirst
        (fun q => decide (now - q.arrive_time > 12)) stop.passengers
        = some (p, l₁ ++ l₂) := by
      rw [hsplit]
      exact extractFirst_of_split
        (fun q hq => decide_eq_false (hl₁ q hq)) (decide_eq_true hp)
    obtain ⟨hist, hupd⟩ : ∃ l', pyUpdateAt acc.avg_wait_time (-1)
        = some l' := by
      have hlen : 0 < acc.avg_wait_time.length := List.length_pos.mpr hne
      unfold pyUpdateAt pyIndex
      rw [if_neg (by omega), if_pos (by omega)]
      exact ⟨_, rfl⟩
    refine ⟨{ acc with
        avg_wait_time := hist,
        leave_passengers := acc.leave_passengers + 1 }, ?_, rfl⟩
    unfold leave_stop
    rw [hext, hupd]
  · intro stops stops' acc₁ acc₂ evs h
    induction stops generalizing stops' acc₁ acc₂ evs with
    | nil =>
      simp only [leave_phase, Option.some.injEq, Prod.mk.injEq] at h
      obtain ⟨-, -, h3⟩ := h
      subst h3
      simp
    | cons st rest ih =>
      unfold leave_phase at h
      split at h
      case h_1 => exact absurd h (by simp)
      case h_2 st' acc' ev₁ hls =>
        split at h
        case h_1 => exact absurd h (by simp)
        case h_2 rest' acc'' ev₂ hlp =>
          simp only [Option.some.injEq, Prod.mk.injEq] at h
          obtain ⟨-, -, h3⟩ := h
          subst h3
          have h1 := (leave_stop_count hls).1
          have h2 := ih _ _ _ _ hlp
          simp only [List.countP_append, List.length_cons]
          omega

/-- C5 at a concrete state: Pam has waited 13.5 units at West St, is the
first (and only) overdue waiter, and `leave_stop` removes exactly her with
one `LEFT` event and an abandonment-counter increment. -/
theorem c5_abandonment_witness :
    stop_west.passengers = [] ++ pax_pam :: []
    ∧ ((215 / 2 : ℚ) - pax_pam.arrive_time > 12)
    ∧ acc0.avg_wait_time ≠ []
    ∧ ∃ acc', leave_stop acc0 (215 / 2) stop_west
        = some ({ stop_west with passengers := [] ++ [] }, acc',
            [Event.left pax_pam.name])
      ∧ acc'.leave_passengers = acc0.leave_passengers + 1 := by
  have h1 : stop_west.passengers = [] ++ pax_pam :: [] := by decide
  have h2 : (215 / 2 : ℚ) - pax_pam.arrive_time > 12 := by decide
  have h3 : acc0.avg_wait_time ≠ [] := by decide
  exact ⟨h1, h2, h3, (c5_abandonment acc0 (215 / 2) stop_west).2.1
    [] pax_pam [] h1 (by simp) h2 h3⟩

/-- C6: for a non-stopped bus whose newly computed free coordinate exits
its geometry's configured `[start, end]` interval, the same tick flips the
bus's direction sign, negates the bus's `busdir` entry for its geometry,
adds the fixed increment 2.5 to the oil-cost accumulator, and emits exactly
one `BUS_TURNS` event. -/
theorem c6_turnaround {m : Model} {now : ℚ} {bus : Bus} {m' : Model}
    {bus' : Bus} {evs : List Event}
    (h : update_bus m now bus = some (m', bus', evs))
    (hst : bus.stopped = false)
    (hout : ¬ (geo_lo m bus.move
        ≤ free_coord bus.move bus.position + bus.speed * bus.direction
      ∧ free_coord bus.move bus.position + bus.speed * bus.direction
        ≤ geo_hi m bus.move)) :
    bus'.direction = -bus.direction
    ∧ busdir_get bus.move bus'.busdir
        = -(busdir_get bus.move bus.busdir)
    ∧ m'.acc.oil_cost = m.acc.oil_cost + 5 / 2
    ∧ evs.countP Event.isBusTurns = 1 := by
  unfold update_bus at h
  cases hmv : bus.move <;> rw [hmv] at h <;> simp only [] at h <;>
    rw [hmv] at hout <;> simp only [geo_lo, geo_hi, free_coord] at hout
  case h =>
    obtain ⟨hd, hbd, hoil, hcnt⟩ :=
      ((update_bus_hori_shape h).2.2.2.2.2.2.2 hst).2.2 hout
    exact ⟨hd, by rw [hbd]; rfl, hoil, hcnt⟩
  case v =>
    obtain ⟨hd, hbd, hoil, hcnt⟩ :=
      ((update_bus_vert_shape h).2.2.2.2.2.2.2 hst).2.2 hout
    exact ⟨hd, by rw [hbd]; rfl, hoil, hcnt⟩
  case s =>
    obtain ⟨hd, hbd, hoil, hcnt⟩ :=
      ((update_bus_s_shape h).2.2.2.2.2.2.2 hst).2.2.2 hout
    exact ⟨hd, by rw [hbd]; rfl, hoil, hcnt⟩

/-- C6 at a concrete tick: `c7bus` moves from x = 99 to x = 101, beyond
`hori_end = 100`, flips direction and its `busdir['h']` sign, pays the 2.5
turnaround oil cost and emits exactly one `BUS_TURNS` event. -/
theorem c6_turnaround_witness :
    update_bus c7model 100 c7bus = some (turnEx.1, turnEx.2.1, turnEx.2.2)
    ∧ c7bus.stopped = false
    ∧ ¬ (geo_lo c7model c7bus.move
        ≤ free_coord c7bus.move c7bus.position
            + c7bus.speed * c7bus.direction
      ∧ free_coord c7bus.move c7bus.position
            + c7bus.speed * c7bus.direction ≤ geo_hi c7model c7bus.move)
    ∧ turnEx.2.1.direction = -c7bus.direction
    ∧ busdir_get c7bus.move turnEx.2.1.busdir
        = -(busdir_get c7bus.move c7bus.busdir)
    ∧ turnEx.1.acc.oil_cost = c7model.acc.oil_cost + 5 / 2
    ∧ (turnEx.2.2).countP Event.isBusTurns = 1 := by
  have h1 : update_bus c7model 100 c7bus
      = some (turnEx.1, turnEx.2.1, turnEx.2.2) := by decide
  have h2 : c7bus.stopped = false := by decide
  have h3 : ¬ (geo_lo c7model c7bus.move
      ≤ free_coord c7bus.move c7bus.position
          + c7bus.speed * c7bus.direction
    ∧ free_coord c7bus.move c7bus.position
          + c7bus.speed * c7bus.direction ≤ geo_hi c7model c7bus.move) := by
    decide
  obtain ⟨g1, g2, g3, g4⟩ := c6_turnaround h1 h2 h3
  exact ⟨h1, h2, h3, g1, g2, g3, g4⟩

/-- C10: every abandonment performed by `leave_stop` also increments the
last (index 8) bucket of the shared wait-time histogram — the source's
`avg_wait_time[-1] += 1` — so `get_wait` counts abandoned passengers in
bucket 8 of the nine-bucket histogram in addition to the boarding
samples. -/
theorem c10_left_bucket {acc : Acc} {now : ℚ} {stop : BusStop}
    {p : BusPassenger} {rest : List BusPassenger}
    (hext : extractFirst (fun q => decide (now - q.arrive_time > 12))
        stop.passengers = some (p, rest))
    (hlen : acc.avg_wait_time.length = 9) :
    ∃ acc', leave_stop acc now stop
        = some ({ stop with passengers := rest }, acc', [Event.left p.name])
      ∧ get_wait acc'
          = (get_wait acc).set 8 ((get_wait acc).getD 8 0 + 1)
      ∧ acc'.leave_passengers = acc.leave_passengers + 1 := by
  have hupd : pyUpdateAt acc.avg_wait_time (-1)
      = some (acc.avg_wait_time.set 8 (acc.avg_wait_time.getD 8 0 + 1)) := by
    unfold pyUpdateAt pyIndex
    rw [hlen]
    rw [if_neg (by omega), if_pos (by omega)]
    rfl
  refine ⟨{ acc with
      avg_wait_time := acc.avg_wait_time.set 8
        (acc.avg_wait_time.getD 8 0 + 1),
      leave_passengers := acc.leave_passengers + 1 }, ?_, rfl, rfl⟩
  unfold leave_stop
  rw [hext, hupd]

/-- C10 at a concrete state: abandoning Pam moves the nine-bucket
histogram from all zeros to a single count in bucket 8. -/
theorem c10_left_bucket_witness :
    extractFirst (fun q => decide ((215 / 2 : ℚ) - q.arrive_time > 12))
        stop_west.passengers = some (pax_pam, [])
    ∧ acc0.avg_wait_time.length = 9
    ∧ ∃ acc', leave_stop acc0 (215 / 2) stop_west
        = some ({ stop_west with passengers := [] }, acc',
            [Event.left pax_pam.name])
      ∧ get_wait acc'
          = (get_wait acc0).set 8 ((get_wait acc0).getD 8 0 + 1)
      ∧ acc'.leave_passengers = acc0.leave_passengers + 1 := by
  have h1 : extractFirst
      (fun q => decide ((215 / 2 : ℚ) - q.arrive_time > 12))
      stop_west.passengers = some (pax_pam, []) := by decide
  have h2 : acc0.avg_wait_time.length = 9 := by decide
  exact ⟨h1, h2, c10_left_bucket h1 h2⟩

/-- C8 refuted at concrete waits: boarding Pam with a rounded wait of 0
lands her sample in bucket 4 of the nine-bucket histogram (Python's
negative-index wraparound of `round(0) - 5 = -5`), not in bucket 0; and a
rounded wait of 20 makes the histogram update raise `IndexError`
(`stop_at` returns `none`) instead of counting bucket 8. -/
theorem c8_counterexample :
    ((stop_at 94 bus_local_h stop_west acc0).map
        (fun r => r.2.2.1.avg_wait_time))
      = some [0, 0, 0, 0, 1, 0, 0, 0, 0]
    ∧ pythonRound ((94 : ℚ) - pax_pam.arrive_time) = 0
    ∧ stop_at 114 bus_local_h stop_west acc0 = none
    ∧ pythonRound ((114 : ℚ) - pax_pam.arrive_time) = 20 := by
  refine ⟨by decide, by decide, by decide, by decide⟩

/-- C8 (amended): the boarding-path histogram update uses the unclamped
index `round(now − arrive) − 5` under Python list indexing: rounded waits
in `[5, 13]` do land in buckets 0–8 as the spec describes, but rounded
waits in `[0, 4]` wrap around to buckets 4–8 (negative Python index), and
rounded waits of 14 or more are out of range and raise `IndexError`. -/
theorem c8_bucket_amended (now arrive : ℚ) (hist : List Nat)
    (hlen : hist.length = 9) :
    (5 ≤ pythonRound (now - arrive) → pythonRound (now - arrive) ≤ 13 →
      pyUpdateAt hist (bucket_index now arrive)
        = some (hist.set (pythonRound (now - arrive) - 5).toNat
            (hist.getD (pythonRound (now - arrive) - 5).toNat 0 + 1)))
    ∧ (0 ≤ pythonRound (now - arrive) → pythonRound (now - arrive) ≤ 4 →
      pyUpdateAt hist (bucket_index now arrive)
        = some (hist.set (pythonRound (now - arrive) + 4).toNat
            (hist.getD (pythonRound (now - arrive) + 4).toNat 0 + 1)))
    ∧ (14 ≤ pythonRound (now - arrive) →
      pyUpdateAt hist (bucket_index now arrive) = none) := by
  unfold pyUpdateAt pyIndex bucket_index
  rw [hlen]
  refine ⟨?_, ?_, ?_⟩
  · intro h1 h2
    rw [if_pos (by omega)]
  · intro h1 h2
    rw [if_neg (by omega), if_pos (by omega)]
    have he : (((9 : Nat) : Int) + (pythonRound (now - arrive) - 5))
        = pythonRound (now - arrive) + 4 := by push_cast; ring
    rw [he]
  · intro h1
    rw [if_neg (by omega), if_neg (by omega)]

/-- C8 (amended) at concrete inputs: a rounded wait of 6 lands in
bucket 1, so the in-range branch of the amended statement applies. -/
theorem c8_bucket_amended_witness :
    ([0, 0, 0, 0, 0, 0, 0, 0, 0] : List Nat).length = 9
    ∧ 5 ≤ pythonRound ((100 : ℚ) - 94) ∧ pythonRound ((100 : ℚ) - 94) ≤ 13
    ∧ pyUpdateAt [0, 0, 0, 0, 0, 0, 0, 0, 0] (bucket_index 100 94)
        = some [0, 1, 0, 0, 0, 0, 0, 0, 0] := by
  have h1 : 5 ≤ pythonRound ((100 : ℚ) - 94) := by decide
  have h2 : pythonRound ((100 : ℚ) - 94) ≤ 13 := by decide
  have h3 := (c8_bucket_amended 100 94 [0, 0, 0, 0, 0, 0, 0, 0, 0] rfl).1
    h1 h2
  refine ⟨rfl, h1, h2, ?_⟩
  rw [h3]
  decide

/-- C9 refuted at a concrete transfer: the `CHANGES` deposit of `stop_at`
appends Dov to Centre St's waiting collection with his original
`source = "South St"` unchanged, so the deposited stop ends up holding a
passenger that does not record it as its stop — the very property
`BusStop.__init__` validates at construction. -/
theorem c9_counterexample :
    ((stop_at 100 bus_vert_l stop_centre acc0).map
        (fun r => (r.2.1.name, r.2.1.passengers.map BusPassenger.source,
          r.2.2.2)))
      = some ("Centre St", ["South St"], [Event.changes "Dov"])
    ∧ ¬ stopInv changeEx.2.1 := by
  constructor
  · decide
  · intro hinv
    have h := hinv (changeEx.2.1.passengers.headD pax_dov) (by decide)
    revert h
    decide

/-- C9 (amended): the invariant "every passenger held by a stop records
that stop as its `source`" is established by the `BusStop` constructor and
preserved by the arrival process, by boarding removal and every other
non-transfer `stop_at` outcome, and by abandonment removal; the mid-journey
transfer deposit is the exception — it appends the passenger with its
original source, so transfer hubs may hold passengers whose recorded stop
differs (no field of the Python passenger tracks its current location). -/
theorem c9_location_amended :
    (∀ (name : String) (pos : ℚ × ℚ) (ps : List BusPassenger)
        (stop : BusStop),
      busStop_init name pos ps = some stop → stopInv stop)
    ∧ (∀ (acc : Acc) (now : ℚ) (arrival : Option String)
          (stop stop' : BusStop) (acc' : Acc) (evs : List Event),
        stopInv stop →
        update_stop acc now arrival stop = some (stop', acc', evs) →
        stopInv stop')
    ∧ (∀ (now : ℚ) (bus : Bus) (stop : BusStop) (acc : Acc) (bus' : Bus)
          (stop' : BusStop) (acc' : Acc) (evs : List Event),
        stopInv stop →
        stop_at now bus stop acc = some (bus', stop', acc', evs) →
        evs.countP Event.isChanges = 0 →
        stopInv stop')
    ∧ (∀ (acc : Acc) (now : ℚ) (stop stop' : BusStop) (acc' : Acc)
          (evs : List Event),
        stopInv stop →
        leave_stop acc now stop = some (stop', acc', evs) →
        stopInv stop') := by
  refine ⟨?_, ?_, ?_, ?_⟩
  · intro name pos ps stop h
    unfold busStop_init at h
    split at h
    case isFalse => exact absurd h (by simp)
    case isTrue hall =>
      simp only [Option.some.injEq] at h
      subst h
      intro p hp
      have := List.all_eq_true.mp hall p hp
      simpa using this
  · intro acc now arrival stop stop' acc' evs hinv h
    unfold update_stop at h
    split at h
    case h_1 =>
      simp only [Option.some.injEq, Prod.mk.injEq] at h
      obtain ⟨h1, -, -⟩ := h
      subst h1
      exact hinv
    case h_2 destination =>
      split at h
      case isTrue hval =>
        simp only [] at h
        split at h
        next => exact absurd h (by simp)
        next hh vv ss heq =>
          simp only [Option.some.injEq, Prod.mk.injEq] at h
          obtain ⟨h1, h2⟩ := h
          subst h1
          intro p hp
          simp only [List.mem_append, List.mem_singleton] at hp
          rcases hp with hp | rfl
          · exact hinv p hp
          · rfl
      case isFalse =>
        simp only [Option.some.injEq, Prod.mk.injEq] at h
        obtain ⟨h1, -, -⟩ := h
        subst h1
        exact hinv
  · intro now bus stop acc bus' stop' acc' evs hinv h hchg
    rw [stop_at_eq] at h
    split at h
    case h_1 p0 rest hext =>
      split at h
      case isTrue hc =>
        simp only [Option.some.injEq, Prod.mk.injEq] at h
        obtain ⟨-, -, -, h4⟩ := h
        subst h4
        simp [List.countP_cons, Event.isChanges] at hchg
      case isFalse hc =>
        simp only [Option.some.injEq, Prod.mk.injEq] at h
        obtain ⟨-, h2, -, -⟩ := h
        subst h2
        exact hinv
    case h_2 hext =>
      rcases board_scan_cases h with
        ⟨-, -, hstop, -, -⟩ |
        ⟨p, rest, hist, hext2, -, -, -, hstop, -, -⟩
      · subst hstop
        exact hinv
      · subst hstop
        obtain ⟨l₁, l₂, hsplit, hrest, -, -⟩ := extractFirst_eq_some hext2
        intro q hq
        simp only [hrest, List.mem_append] at hq
        have hq' : q ∈ stop.passengers := by
          rw [hsplit]
          rcases hq with hq | hq
          · exact List.mem_append.mpr (Or.inl hq)
          · exact List.mem_append.mpr (Or.inr (List.mem_cons_of_mem _ hq))
        exact hinv q hq'
  · intro acc now stop stop' acc' evs hinv h
    unfold leave_stop at h
    split at h
    case h_1 =>
      simp only [Option.some.injEq, Prod.mk.injEq] at h
      obtain ⟨h1, -, -⟩ := h
      subst h1
      exact hinv
    case h_2 p rest hext =>
      split at h
      case h_1 => exact absurd h (by simp)
      case h_2 hist hupd =>
        simp only [Option.some.injEq, Prod.mk.injEq] at h
        obtain ⟨h1, -, -⟩ := h
        subst h1
        obtain ⟨l₁, l₂, hsplit, hrest, -, -⟩ := extractFirst_eq_some hext
        intro q hq
        simp only [hrest, List.mem_append] at hq
        have hq' : q ∈ stop.passengers := by
          rw [hsplit]
          rcases hq with hq | hq
          · exact List.mem_append.mpr (Or.inl hq)
          · exact List.mem_append.mpr (Or.inr (List.mem_cons_of_mem _ hq))
        exact hinv q hq'

/-- C9 (amended) at concrete states: `stop_west` passes the constructor
check and satisfies the invariant, and a concrete arrival at West St
preserves it. -/
theorem c9_location_amended_witness :
    busStop_init "West St" (0, 0) [pax_pam] = some stop_west
    ∧ stopInv stop_west
    ∧ ((update_stop acc0 100 (some "East St") stop_west).map
        (fun r => r.1.passengers.map BusPassenger.source))
        = some ["West St", "West St"] := by
  have h1 : busStop_init "West St" (0, 0) [pax_pam] = some stop_west := by
    decide
  exact ⟨h1, c9_location_amended.1 _ _ _ _ h1, by decide⟩

/-- C7 refuted at a concrete tick: `c7bus` starts inside its interval at
x = 99 with `hori_end = 100` and speed 2, and after one `update` tick its
position is x = 101 — outside the configured `[0, 100]` interval.  The
movement update writes the overshot coordinate and only flips the
direction; it does not reflect the position at the bound. -/
theorem c7_counterexample :
    run c7model [tick0] = some runEx
    ∧ c7model.hori_start ≤ c7bus.position.1
        ∧ c7bus.position.1 ≤ c7model.hori_end
    ∧ runEx.buses.map Bus.position = [(101, 0)]
    ∧ runEx.hori_start = 0 ∧ runEx.hori_end = 100
    ∧ ¬ ((runEx.hori_start : ℚ) ≤ 101 ∧ (101 : ℚ) ≤ runEx.hori_end) := by
  refine ⟨by decide, by decide, by decide, by decide, by decide, by decide,
    ?_⟩
  decide

/-- C7 (amended): on every tick boundary each bus's free coordinate lies
within its geometry's interval *inflated by one speed step* —
`[start − speed, end + speed]` — and whenever it lies strictly outside
`[start, end]` the direction already points back inward (the overshoot is
corrected on the next moving tick); for the inclined geometry the y
coordinate stays within the plateau bounds `[-20, 30]`.  The position does
not reflect at the bounds and can spend the turnaround tick outside the
configured interval, as the counterexample shows. -/
theorem c7_bounds_amended (m : Model) (inps : List TickInput) (m' : Model)
    (hrun : run m inps = some m') (hok : buses_ok m) :
    buses_ok m'
    ∧ ∀ b ∈ m'.buses,
        geo_lo m' b.move - b.speed ≤ free_coord b.move b.position
        ∧ free_coord b.move b.position ≤ geo_hi m' b.move + b.speed
        ∧ (b.move = MoveKind.s →
            -20 ≤ b.position.2 ∧ b.position.2 ≤ 30) := by
  have hok' := (run_spec hrun).2 hok
  refine ⟨hok', ?_⟩
  intro b hb
  obtain ⟨hbnd, hbus⟩ := hok'
  obtain ⟨hsp, hdir, hinv, hclamp⟩ := hbus b hb
  have hlh : geo_lo m' b.move ≤ geo_hi m' b.move := by
    obtain ⟨b1, b2, b3⟩ := hbnd
    cases b.move <;> simpa [geo_lo, geo_hi]
  unfold posInvAx at hinv
  refine ⟨?_, ?_, hclamp⟩ <;>
    rcases hinv with ⟨h1, h2⟩ | ⟨h1, h2, h3⟩ | ⟨h1, h2, h3⟩ <;> linarith

/-- C7 (amended) at a concrete run: the turnaround tick of `c7model` keeps
the bus within the inflated interval `[0 − 2, 100 + 2]`. -/
theorem c7_bounds_amended_witness :
    run c7model [tick0] = some runEx
    ∧ buses_ok c7model
    ∧ geo_lo runEx (runEx.buses.headD c7bus).move
          - (runEx.buses.headD c7bus).speed
        ≤ free_coord (runEx.buses.headD c7bus).move
            (runEx.buses.headD c7bus).position
    ∧ free_coord (runEx.buses.headD c7bus).move
          (runEx.buses.headD c7bus).position
        ≤ geo_hi runEx (runEx.buses.headD c7bus).move
            + (runEx.buses.headD c7bus).speed := by
  have h1 : run c7model [tick0] = some runEx := by decide
  have h2 : buses_ok c7model := by
    unfold buses_ok bounds_ok bus_ok posInvAx
    decide
  have h3 := (c7_bounds_amended _ _ _ h1 h2).2 (runEx.buses.headD c7bus)
    (by decide)
  exact ⟨h1, h2, h3.1, h3.2.1⟩

/-- C1 refuted at a concrete configuration: `Bus.__init__` accepts a bus
that starts with two passengers against a capacity of one (no constructor
check relates the two), and after a tick of the validly constructed
network the bus still carries 2 > 1 passengers.  The invariant therefore
needs the extra premise that every bus starts within its capacity. -/
theorem c1_counterexample :
    bus_init "O1" (10, 0) 1 1 [pax_a, pax_b] false [] MoveKind.h
        ServiceClass.l 1 2 { h := 1, v := 0, s := 0 } = some c1bus
    ∧ run c1model [tick0] = some runC1Ex
    ∧ runC1Ex.buses.map
        (fun b => ((b.passengers.length : Int), b.capacity)) = [(2, 1)]
    ∧ ¬ ((2 : Int) ≤ 1) := by
  exact ⟨by decide, by decide, by decide, by decide⟩

/-- C1 (amended): provided every bus of the starting network holds at most
`capacity` passengers — a premise the entity constructors do not check —
after any number of `update` ticks every bus satisfies
`0 ≤ len(passengers) ≤ capacity`; and unconditionally, a `stop_at` call
that appends a passenger to a bus does so only when the onboard count was
strictly below the bus's capacity. -/
theorem c1_capacity_amended (m : Model) (inps : List TickInput)
    (m' : Model) (hrun : run m inps = some m') (hcap : capInv m) :
    (∀ b ∈ m'.buses, 0 ≤ b.passengers.length
        ∧ (b.passengers.length : Int) ≤ b.capacity)
    ∧ (∀ (now : ℚ) (bus : Bus) (stop : BusStop) (acc : Acc)
          (r : Bus × BusStop × Acc × List Event),
        stop_at now bus stop acc = some r →
        bus.passengers.length < r.1.passengers.length →
        (bus.passengers.length : Int) < bus.capacity) := by
  constructor
  · intro b hb
    exact ⟨Nat.zero_le _, (run_spec hrun).1 hcap b hb⟩
  · intro now bus stop acc r hr hlt
    have hr' : stop_at now bus stop acc
        = some (r.1, r.2.1, r.2.2.1, r.2.2.2) := by rw [hr]
    exact (stop_at_frame hr').2.2.2.2.2 hlt

/-- C1 (amended) at a concrete run: the legally loaded `c7model` stays
within capacity after a tick. -/
theorem c1_capacity_amended_witness :
    run c7model [tick0] = some runEx
    ∧ capInv c7model
    ∧ 0 ≤ (runEx.buses.headD c7bus).passengers.length
    ∧ ((runEx.buses.headD c7bus).passengers.length : Int)
        ≤ (runEx.buses.headD c7bus).capacity := by
  have h1 : run c7model [tick0] = some runEx := by decide
  have h2 : capInv c7model := by
    unfold capInv
    decide
  have h3 := (c1_capacity_amended _ _ _ h1 h2).1 (runEx.buses.headD c7bus)
    (by decide)
  exact ⟨h1, h2, h3.1, h3.2⟩

end Bussim
